import Mathlib

/-!
Verification of the comparison/diff engine of the json-sync-diff repository
(`src/store/slices/comparisonSlice.ts`, latest revision).  The JavaScript
runtime values that the engine manipulates are modelled by `JValue`; the
comparison functions `compareFeatureToggles`, `compareGenericData`,
`compareCustomArrayData`, `compareCustomObjectData` and the reducer
`createComparisonSession` are translated definition by definition.
-/

set_option maxHeartbeats 1000000

/-- JSON-like runtime values of the JavaScript engine.  `undef` models the
JavaScript value `undefined` (the result of property access on an absent key);
`obj` models a plain object as its insertion-ordered association list of own
fields (a JavaScript object cannot hold the same key twice, so the key lists
are unique by construction).  Numbers are modelled as integers; none of the
compared logic depends on fractional values. -/
inductive JValue where
  | undef : JValue
  | null : JValue
  | bool : Bool → JValue
  | num : Int → JValue
  | str : String → JValue
  | arr : List JValue → JValue
  | obj : List (String × JValue) → JValue
  deriving Repr

mutual

/-- Decidable equality for `JValue`, by structural recursion; the nested list
arguments are handled by the two companion functions. -/
def JValue.decEq : (a b : JValue) → Decidable (a = b)
  | .undef, .undef => isTrue rfl
  | .null, .null => isTrue rfl
  | .bool x, .bool y =>
      if h : x = y then isTrue (by rw [h]) else isFalse (by simp [h])
  | .num x, .num y =>
      if h : x = y then isTrue (by rw [h]) else isFalse (by simp [h])
  | .str x, .str y =>
      if h : x = y then isTrue (by rw [h]) else isFalse (by simp [h])
  | .arr x, .arr y =>
      match JValue.decEqList x y with
      | isTrue h => isTrue (by rw [h])
      | isFalse h => isFalse (by simp [h])
  | .obj x, .obj y =>
      match JValue.decEqFields x y with
      | isTrue h => isTrue (by rw [h])
      | isFalse h => isFalse (by simp [h])
  | .undef, .null => isFalse nofun
  | .undef, .bool _ => isFalse nofun
  | .undef, .num _ => isFalse nofun
  | .undef, .str _ => isFalse nofun
  | .undef, .arr _ => isFalse nofun
  | .undef, .obj _ => isFalse nofun
  | .null, .undef => isFalse nofun
  | .null, .bool _ => isFalse nofun
  | .null, .num _ => isFalse nofun
  | .null, .str _ => isFalse nofun
  | .null, .arr _ => isFalse nofun
  | .null, .obj _ => isFalse nofun
  | .bool _, .undef => isFalse nofun
  | .bool _, .null => isFalse nofun
  | .bool _, .num _ => isFalse nofun
  | .bool _, .str _ => isFalse nofun
  | .bool _, .arr _ => isFalse nofun
  | .bool _, .obj _ => isFalse nofun
  | .num _, .undef => isFalse nofun
  | .num _, .null => isFalse nofun
  | .num _, .bool _ => isFalse nofun
  | .num _, .str _ => isFalse nofun
  | .num _, .arr _ => isFalse nofun
  | .num _, .obj _ => isFalse nofun
  | .str _, .undef => isFalse nofun
  | .str _, .null => isFalse nofun
  | .str _, .bool _ => isFalse nofun
  | .str _, .num _ => isFalse nofun
  | .str _, .arr _ => isFalse nofun
  | .str _, .obj _ => isFalse nofun
  | .arr _, .undef => isFalse nofun
  | .arr _, .null => isFalse nofun
  | .arr _, .bool _ => isFalse nofun
  | .arr _, .num _ => isFalse nofun
  | .arr _, .str _ => isFalse nofun
  | .arr _, .obj _ => isFalse nofun
  | .obj _, .undef => isFalse nofun
  | .obj _, .null => isFalse nofun
  | .obj _, .bool _ => isFalse nofun
  | .obj _, .num _ => isFalse nofun
  | .obj _, .str _ => isFalse nofun
  | .obj _, .arr _ => isFalse nofun

/-- Decidable equality for lists of `JValue`. -/
def JValue.decEqList : (a b : List JValue) → Decidable (a = b)
  | [], [] => isTrue rfl
  | x :: xs, y :: ys =>
      match JValue.decEq x y, JValue.decEqList xs ys with
      | isTrue h1, isTrue h2 => isTrue (by rw [h1, h2])
      | isFalse h1, _ => isFalse (by simp [h1])
      | _, isFalse h2 => isFalse (by simp [h2])
  | [], _ :: _ => isFalse nofun
  | _ :: _, [] => isFalse nofun

/-- Decidable equality for field lists of `JValue` objects. -/
def JValue.decEqFields : (a b : List (String × JValue)) → Decidable (a = b)
  | [], [] => isTrue rfl
  | (k, v) :: xs, (k', v') :: ys =>
      match instDecidableEqString k k', JValue.decEq v v', JValue.decEqFields xs ys with
      | isTrue h0, isTrue h1, isTrue h2 => isTrue (by rw [h0, h1, h2])
      | isFalse h0, _, _ => isFalse (by simp [h0])
      | _, isFalse h1, _ => isFalse (by simp [h1])
      | _, _, isFalse h2 => isFalse (by simp [h2])
  | [], _ :: _ => isFalse nofun
  | _ :: _, [] => isFalse nofun

end

instance : DecidableEq JValue := JValue.decEq

/-- JavaScript truthiness of a value (`if (x)`). -/
def jsTruthy : JValue → Bool
  | .undef => false
  | .null => false
  | .bool b => b
  | .num n => n != 0
  | .str s => s != ""
  | .arr _ => true
  | .obj _ => true

/-- `x && typeof x === 'object'`: a truthy value of object type
(`null` is of type object but falsy; arrays are objects). -/
def jsIsObject : JValue → Bool
  | .obj _ => true
  | .arr _ => true
  | _ => false

/-- JavaScript property access `value[key]` with a string key, for object and
array values; absent keys give `undefined`.  Array access converts a canonical
decimal key to an index.  (Prototype properties such as `length` are not
modelled; the engine never reads them.) -/
def jsIndex : JValue → String → JValue
  | .obj fields, key =>
      match fields.lookup key with
      | some v => v
      | none => JValue.undef
  | .arr elems, key =>
      match key.toNat? with
      | some n => if toString n = key then elems.getD n .undef else JValue.undef
      | none => JValue.undef
  | _, _ => JValue.undef

/-- Characters of `String.prototype.split('.')` applied to the given
character list. -/
def splitDotChars : List Char → List String
  | [] => [""]
  | c :: rest =>
      match splitDotChars rest with
      | [] => [String.mk [c]]
      | h :: t => if c = '.' then "" :: h :: t else String.mk (c :: h.data) :: t

/-- `path.split('.')`. -/
def splitDot (s : String) : List String := splitDotChars s.data

/-- `getValueAtPath` of the source: split the path on `.` and reduce by
property access, yielding `undefined` as soon as an intermediate value is not
a (truthy) object. -/
def getValueAtPath (obj : JValue) (path : String) : JValue :=
  (splitDot path).foldl
    (fun current key => if jsIsObject current then jsIndex current key else .undef) obj

/-- `Set.add` on an insertion-ordered set of strings: adding an element that
is already present leaves the set unchanged. -/
def insertUnique (l : List String) (s : String) : List String :=
  if s ∈ l then l else l ++ [s]

mutual

/-- The `traverse` closure of `collectPaths`: descend into plain objects
(never arrays), adding the dotted path of every key encountered. -/
def traversePaths : JValue → String → List String → List String
  | .obj fields, currentPath, acc => traverseFields fields currentPath acc
  | _, _, acc => acc

/-- `Object.keys(obj).forEach` part of `traversePaths`. -/
def traverseFields : List (String × JValue) → String → List String → List String
  | [], _, acc => acc
  | (key, v) :: rest, currentPath, acc =>
      let newPath := if currentPath = "" then key else currentPath ++ "." ++ key
      traverseFields rest currentPath (traversePaths v newPath (insertUnique acc newPath))

end

/-- `collectPaths` of the source: the insertion-ordered union of all dotted
object paths occurring in any of the given values. -/
def collectPaths (objects : List JValue) : List String :=
  objects.foldl (fun acc o => traversePaths o "" acc) []

/-- JavaScript `map.set(key, v)` on an insertion-ordered association list
(also the semantics of `record[key] = v` on a plain object): an existing key
keeps its position and gets the new value, a new key is appended. -/
def mapSet {α : Type} (m : List (String × α)) (key : String) (v : α) : List (String × α) :=
  if m.any (fun p => p.1 == key) then
    m.map (fun p => if p.1 == key then (key, v) else p)
  else m ++ [(key, v)]

/-- `new Map(entries)`: later entries with the same key overwrite earlier
ones. -/
def mapOfList {α : Type} (entries : List (String × α)) : List (String × α) :=
  entries.foldl (fun m p => mapSet m p.1 p.2) []

/-- JavaScript property read `record[key]` on an association-list record,
giving `undefined` for an absent key. -/
def jsGet (o : List (String × JValue)) (key : String) : JValue :=
  match o.lookup key with
  | some v => v
  | none => JValue.undef

/-- Escaping of string contents performed by `JSON.stringify`. -/
def escJsonChars : List Char → List Char
  | [] => []
  | c :: rest =>
      (if c = '"' then ['\\', '"']
       else if c = '\\' then ['\\', '\\']
       else if c = '\n' then ['\\', 'n']
       else [c]) ++ escJsonChars rest

mutual

/-- Characters of `JSON.stringify(v)`.  Object members whose value is
`undefined` are dropped; `undefined` elements of arrays serialize as `null`.
(`JSON.stringify(undefined)` at top level actually returns no string at all;
the comparison code never serializes a top-level `undefined`, every serialized
value is either a collected present value or the `'MISSING'` sentinel.) -/
def jsonStringifyChars : JValue → List Char
  | .undef => "undefined".data
  | .null => "null".data
  | .bool true => "true".data
  | .bool false => "false".data
  | .num n => (toString n).data
  | .str s => '"' :: (escJsonChars s.data ++ ['"'])
  | .arr elems => '[' :: (jsonArrayChars elems true ++ [']'])
  | .obj fields => '\x7b' :: (jsonObjChars fields true ++ ['\x7d'])

/-- Comma-separated serializations of array elements; `undefined` elements
serialize as `null`.  The flag records whether no element has been emitted
yet. -/
def jsonArrayChars : List JValue → Bool → List Char
  | [], _ => []
  | .undef :: rest, first =>
      (if first then [] else [',']) ++ "null".data ++ jsonArrayChars rest false
  | v :: rest, first =>
      (if first then [] else [',']) ++ jsonStringifyChars v ++ jsonArrayChars rest false

/-- Comma-separated `"key":value` members of an object, skipping members whose
value is `undefined`; the flag records whether no member has been emitted yet. -/
def jsonObjChars : List (String × JValue) → Bool → List Char
  | [], _ => []
  | (key, v) :: rest, first =>
      match v with
      | .undef => jsonObjChars rest first
      | _ =>
          (if first then [] else [',']) ++
          ('"' :: (escJsonChars key.data ++ ['"', ':'])) ++
          jsonStringifyChars v ++ jsonObjChars rest false

end

/-- `JSON.stringify(v)` as a string. -/
def jsonStringify (v : JValue) : String := String.mk (jsonStringifyChars v)

mutual

/-- Characters of the JavaScript string coercion `String(v)` (used on
identifier values and in description templates). -/
def jsToStringChars : JValue → List Char
  | .undef => "undefined".data
  | .null => "null".data
  | .bool true => "true".data
  | .bool false => "false".data
  | .num n => (toString n).data
  | .str s => s.data
  | .arr elems => jsArrayJoinChars elems true
  | .obj _ => "[object Object]".data

/-- `Array.prototype.toString` = `join(',')`: `null` and `undefined` elements
render as the empty string.  The flag records whether this is the first
element. -/
def jsArrayJoinChars : List JValue → Bool → List Char
  | [], _ => []
  | .undef :: rest, first =>
      (if first then [] else [',']) ++ jsArrayJoinChars rest false
  | .null :: rest, first =>
      (if first then [] else [',']) ++ jsArrayJoinChars rest false
  | v :: rest, first =>
      (if first then [] else [',']) ++ jsToStringChars v ++ jsArrayJoinChars rest false

end

/-- `String(v)`. -/
def jsToString (v : JValue) : String := String.mk (jsToStringChars v)

/-- The `type` field of a `ComparisonResult`
(`'added' | 'deleted' | 'edited' | 'unchanged'`). -/
inductive DiffType where
  | added
  | deleted
  | edited
  | unchanged
  deriving DecidableEq, Repr

/-- One row of engine output (`ComparisonResult` of the source). -/
structure ComparisonResult where
  path : String
  type : DiffType
  values : List (String × JValue)
  affectedInstances : List String
  description : String
  deriving DecidableEq, Repr

/-- Aggregate counts over a result set. -/
structure Summary where
  totalDifferences : Nat
  added : Nat
  deleted : Nat
  edited : Nat
  deriving DecidableEq, Repr

/-- A persisted comparison run (`ComparisonSession` of the source). -/
structure ComparisonSession where
  id : String
  name : String
  instanceIds : List String
  endpoint : String
  timestamp : String
  results : List ComparisonResult
  summary : Summary
  deriving DecidableEq, Repr

/-- A feature-toggle record.  Only `FeatureName` and `CurrentValue` are read
by the comparison logic; the remaining fields of the TypeScript interface
(`ToggleType`, `ToggleDescription`, `ToggleWorkItemId`, `ToggleTags`,
`IsOnByDefault`, `AddedDate`, `ModuleName`, `DBValue`) are never inspected
and are omitted from the model. -/
structure FeatureToggle where
  FeatureName : String
  CurrentValue : Bool
  deriving DecidableEq, Repr

/-- A user-defined comparison type.  Only the fields read by the comparison
logic are modelled; `fetchEndpoint`, `saveEndpoint`, `description`,
`sampleData`, `responseFields`, `requestBody` and `createdAt` are
configuration plumbing that the engine never inspects. -/
structure CustomComparisonType where
  id : String
  name : String
  label : String
  comparisonFields : List String
  identifierField : Option String
  deriving DecidableEq, Repr

/-- A per-instance payload (`ComparisonData` of the source): either a
feature-toggle array or a JSON value (settings / code-table / custom shape). -/
inductive ComparisonData where
  | toggles : List FeatureToggle → ComparisonData
  | json : JValue → ComparisonData
  deriving DecidableEq, Repr

/-- The slice state.  Only the fields read or written by the modelled
reducers are kept; `selectedInstances`, the endpoint fields and `loading`
never influence the comparison logic. -/
structure ComparisonState where
  sessions : List ComparisonSession
  activeSessionId : Option String
  baseInstanceId : Option String
  comparisonType : String
  customTypes : List CustomComparisonType
  error : Option String
  deriving DecidableEq, Repr

/-- The initial slice state with empty local storage: no sessions, no active
session, no base instance, comparison type `settings`, no custom types. -/
def initialComparisonState : ComparisonState :=
  { sessions := []
    activeSessionId := none
    baseInstanceId := none
    comparisonType := "settings"
    customTypes := []
    error := none }

/-- Truthiness of an optional string (`if (baseInstanceId)` style tests:
`undefined` and the empty string are falsy). -/
def strTruthy : Option String → Bool
  | some s => s != ""
  | none => false

/-- The value recorded for one instance in the `values` map of one comparison
unit: the resolved value when present, otherwise the `'MISSING'` sentinel
string.  `resolve` yields `undefined` exactly when the instance has no value
for the unit. -/
def unitEntry (resolve : String → JValue) (id : String) : JValue :=
  if resolve id != .undef then resolve id else .str ("MISSING")

/-- The `values` record of one comparison unit, built by assigning
`values[instanceId]` for each instance id in declared order. -/
def unitValues (resolve : String → JValue) (instanceIds : List String) :
    List (String × JValue) :=
  instanceIds.foldl (fun vals id => mapSet vals id (unitEntry resolve id)) []

/-- The `affectedInstances` list of one comparison unit: the instance ids
whose resolved value is present, in declared order (`affectedInstances.push`
happens exactly in the present branch of the collection loop). -/
def unitAffected (resolve : String → JValue) (instanceIds : List String) : List String :=
  instanceIds.filter (fun id => resolve id != .undef)

/-- The `hasBaseValue` flag after the collection loop: set when a truthy base
instance id occurs in the instance list and resolves to a present value. -/
def hasBaseValue (resolve : String → JValue) (instanceIds : List String) :
    Option String → Bool
  | some b => b != "" && instanceIds.contains b && resolve b != .undef
  | none => false

/-- The `baseValue` local after the collection loop: the base instance's
resolved value when `hasBaseValue` was set, otherwise still `undefined`. -/
def baseValueOf (resolve : String → JValue) (instanceIds : List String)
    (baseId : Option String) : JValue :=
  if hasBaseValue resolve instanceIds baseId then
    match baseId with
    | some b => resolve b
    | none => JValue.undef
  else JValue.undef

/-- Value difference test of the generic comparisons:
`JSON.stringify(a) !== JSON.stringify(b)`. -/
def serDiffers (a b : JValue) : Bool := jsonStringify a != jsonStringify b

/-- Value difference test of the feature-toggle comparison: strict inequality
`a !== b` (the compared values are booleans or the sentinel string, on which
strict equality is value equality). -/
def rawDiffers (a b : JValue) : Bool := a != b

/-- `new Set(list.map(v => JSON.stringify(v))).size`. -/
def serDistinctCount (l : List JValue) : Nat := (l.map jsonStringify).dedup.length

/-- `new Set(list).size` over primitive values. -/
def rawDistinctCount (l : List JValue) : Nat := l.dedup.length

/-- The `hasDifference` flag of one comparison unit.  In base-relative mode
(truthy base id with a present base value) any non-base instance whose entry
differs from the base value, or is the `'MISSING'` sentinel, sets the flag;
otherwise the flag is the symmetric test: more than one distinct entry among
all instances. -/
def unitHasDifference (differs : JValue → JValue → Bool)
    (distinctCount : List JValue → Nat) (resolve : String → JValue)
    (instanceIds : List String) (baseId : Option String)
    (values : List (String × JValue)) : Bool :=
  if strTruthy baseId && hasBaseValue resolve instanceIds baseId then
    instanceIds.any (fun id =>
      (some id != baseId) &&
      ((differs (jsGet values id) (baseValueOf resolve instanceIds baseId) &&
          (jsGet values id != JValue.str ("MISSING"))) ||
        (jsGet values id == JValue.str ("MISSING"))))
  else
    decide (1 < distinctCount (values.map Prod.snd))

/-- The `type` classification of a differing comparison unit, shared verbatim
by all four comparison functions: partial presence is classified
added/deleted (against the base entry when a base id is truthy, else by the
missing-vs-present count tie-break), full presence with differing values is
`edited`, and the declared default `'edited'` stays otherwise. -/
def classifyType (values : List (String × JValue)) (instanceIds : List String)
    (baseId : Option String) : DiffType :=
  let missingInstances := instanceIds.filter (fun id => jsGet values id == JValue.str ("MISSING"))
  let presentInstances := instanceIds.filter (fun id => jsGet values id != JValue.str ("MISSING"))
  if 0 < missingInstances.length ∧ 0 < presentInstances.length then
    match baseId with
    | some b =>
        if b != "" then
          if jsGet values b == JValue.str ("MISSING") then .added else .deleted
        else if missingInstances.length < presentInstances.length then .added
        else .deleted
    | none =>
        if missingInstances.length < presentInstances.length then .added
        else .deleted
  else if presentInstances.length = instanceIds.length then .edited
  else .edited

/-- The per-function wording of the synthesized `description` sentences; the
selection logic around them (`unitDescription`) is shared verbatim by all four
comparison functions. -/
structure DescTemplates where
  addedBase : Nat → String
  deletedBase : Nat → JValue → String
  addedNoBase : Nat → Nat → String
  deletedNoBase : Nat → Nat → String
  editedBase : Nat → JValue → String
  editedNoBase : String

/-- The `description` synthesized for a differing comparison unit, following
the same branch structure as `classifyType`; the declared default `''` stays
when neither branch matches. -/
def unitDescription (differs : JValue → JValue → Bool)
    (values : List (String × JValue)) (instanceIds : List String)
    (baseId : Option String) (resolve : String → JValue) (tmpl : DescTemplates) : String :=
  let missingInstances := instanceIds.filter (fun id => jsGet values id == JValue.str ("MISSING"))
  let presentInstances := instanceIds.filter (fun id => jsGet values id != JValue.str ("MISSING"))
  let noBasePartial :=
    if missingInstances.length < presentInstances.length then
      tmpl.addedNoBase presentInstances.length missingInstances.length
    else tmpl.deletedNoBase missingInstances.length presentInstances.length
  if 0 < missingInstances.length ∧ 0 < presentInstances.length then
    match baseId with
    | some b =>
        if b != "" then
          if jsGet values b == JValue.str ("MISSING") then
            tmpl.addedBase presentInstances.length
          else
            tmpl.deletedBase missingInstances.length (baseValueOf resolve instanceIds baseId)
        else noBasePartial
    | none => noBasePartial
  else if presentInstances.length = instanceIds.length then
    if strTruthy baseId && hasBaseValue resolve instanceIds baseId then
      tmpl.editedBase
        ((instanceIds.filter (fun id =>
          (some id != baseId) &&
          differs (jsGet values id) (baseValueOf resolve instanceIds baseId))).length)
        (baseValueOf resolve instanceIds baseId)
    else tmpl.editedNoBase
  else ""

/-- The shared body of the per-unit loop of all four comparison functions:
collect the per-instance values, decide `hasDifference`, and emit a
`ComparisonResult` when the unit differs (the feature-toggle comparison
additionally emits on partial presence, `alsoIfPartial`). -/
def mkUnitResult (differs : JValue → JValue → Bool)
    (distinctCount : List JValue → Nat) (alsoIfPartial : Bool)
    (resolve : String → JValue) (instanceIds : List String)
    (baseId : Option String) (path : String) (tmpl : DescTemplates) :
    Option ComparisonResult :=
  let values := unitValues resolve instanceIds
  let affectedInstances := unitAffected resolve instanceIds
  let hasDifference :=
    unitHasDifference differs distinctCount resolve instanceIds baseId values
  if hasDifference || (alsoIfPartial && (affectedInstances.length != instanceIds.length)) then
    some
      { path := path
        type := classifyType values instanceIds baseId
        values := values
        affectedInstances := affectedInstances
        description := unitDescription differs values instanceIds baseId resolve tmpl }
  else none

/-- Description wording of `compareFeatureToggles`. -/
def toggleTemplates (featureName : String) : DescTemplates :=
  { addedBase := fun np =>
      "Feature \"" ++ featureName ++ "\" added in " ++ toString np ++
      " instance(s) (not present in base)"
    deletedBase := fun nm bv =>
      "Feature \"" ++ featureName ++ "\" deleted in " ++ toString nm ++
      " instance(s) (present in base with value " ++ jsToString bv ++ ")"
    addedNoBase := fun np nm =>
      "Feature \"" ++ featureName ++ "\" added in " ++ toString np ++
      " instance(s), missing in " ++ toString nm
    deletedNoBase := fun nm np =>
      "Feature \"" ++ featureName ++ "\" deleted in " ++ toString nm ++
      " instance(s), present in " ++ toString np
    editedBase := fun nd bv =>
      "Feature \"" ++ featureName ++ "\" differs from base value " ++ jsToString bv ++
      " in " ++ toString nd ++ " instance(s)"
    editedNoBase :=
      "Feature \"" ++ featureName ++ "\" has inconsistent values across instances" }

/-- Description wording of `compareGenericData`. -/
def genericTemplates (path : String) : DescTemplates :=
  { addedBase := fun np =>
      "Setting at \"" ++ path ++ "\" added in " ++ toString np ++
      " instance(s) (not present in base)"
    deletedBase := fun nm _ =>
      "Setting at \"" ++ path ++ "\" deleted in " ++ toString nm ++
      " instance(s) (present in base)"
    addedNoBase := fun np nm =>
      "Setting at \"" ++ path ++ "\" added in " ++ toString np ++
      " instance(s), missing in " ++ toString nm
    deletedNoBase := fun nm np =>
      "Setting at \"" ++ path ++ "\" deleted in " ++ toString nm ++
      " instance(s), present in " ++ toString np
    editedBase := fun nd _ =>
      "Setting at \"" ++ path ++ "\" differs from base value in " ++ toString nd ++
      " instance(s)"
    editedNoBase :=
      "Setting at \"" ++ path ++ "\" has inconsistent values across instances" }

/-- Description wording of `compareCustomArrayData`. -/
def customArrayTemplates (label itemId : String) : DescTemplates :=
  { addedBase := fun np =>
      label ++ " item \"" ++ itemId ++ "\" added in " ++ toString np ++
      " instance(s) (not present in base)"
    deletedBase := fun nm _ =>
      label ++ " item \"" ++ itemId ++ "\" deleted in " ++ toString nm ++
      " instance(s) (present in base)"
    addedNoBase := fun np nm =>
      label ++ " item \"" ++ itemId ++ "\" added in " ++ toString np ++
      " instance(s), missing in " ++ toString nm
    deletedNoBase := fun nm np =>
      label ++ " item \"" ++ itemId ++ "\" deleted in " ++ toString nm ++
      " instance(s), present in " ++ toString np
    editedBase := fun nd _ =>
      label ++ " item \"" ++ itemId ++ "\" differs from base in " ++ toString nd ++
      " instance(s)"
    editedNoBase :=
      label ++ " item \"" ++ itemId ++ "\" has inconsistent values across instances" }

/-- Description wording of `compareCustomObjectData`. -/
def customObjectTemplates (label fieldPath : String) : DescTemplates :=
  { addedBase := fun np =>
      label ++ " field \"" ++ fieldPath ++ "\" added in " ++ toString np ++
      " instance(s) (not present in base)"
    deletedBase := fun nm _ =>
      label ++ " field \"" ++ fieldPath ++ "\" deleted in " ++ toString nm ++
      " instance(s) (present in base)"
    addedNoBase := fun np nm =>
      label ++ " field \"" ++ fieldPath ++ "\" added in " ++ toString np ++
      " instance(s), missing in " ++ toString nm
    deletedNoBase := fun nm np =>
      label ++ " field \"" ++ fieldPath ++ "\" deleted in " ++ toString nm ++
      " instance(s), present in " ++ toString np
    editedBase := fun nd _ =>
      label ++ " field \"" ++ fieldPath ++ "\" differs from base value in " ++
      toString nd ++ " instance(s)"
    editedNoBase :=
      label ++ " field \"" ++ fieldPath ++ "\" has inconsistent values across instances" }

/-- Per-instance resolution of one feature name: look the instance's feature
array up (absent instances give `[]`), build the `Map` from feature name to
record, and read `CurrentValue` of the matched feature; `undefined` when the
instance lacks the feature. -/
def toggleResolve (instanceData : List (String × List FeatureToggle))
    (featureName : String) (instanceId : String) : JValue :=
  let features := (instanceData.lookup instanceId).getD []
  let featureMap := mapOfList (features.map (fun f => (f.FeatureName, f)))
  match featureMap.lookup featureName with
  | some f => .bool f.CurrentValue
  | none => JValue.undef

/-- The insertion-ordered union of all feature names across the instances
(`allFeatureNames` of the source). -/
def allFeatureNames (instanceData : List (String × List FeatureToggle))
    (instanceIds : List String) : List String :=
  instanceIds.foldl (fun acc instanceId =>
    ((instanceData.lookup instanceId).getD []).foldl
      (fun acc f => insertUnique acc f.FeatureName) acc) []

/-- `compareFeatureToggles` of the source.  Value comparison is strict
(in)equality on the collected primitive values; a unit is also emitted when
some instance lacks the feature (`affectedInstances.length !==
instanceIds.length`). -/
def compareFeatureToggles (instanceData : List (String × List FeatureToggle))
    (instanceIds : List String) (baseInstanceId : Option String) :
    List ComparisonResult :=
  (allFeatureNames instanceData instanceIds).filterMap (fun featureName =>
    mkUnitResult rawDiffers rawDistinctCount true
      (toggleResolve instanceData featureName) instanceIds baseInstanceId
      featureName (toggleTemplates featureName))

/-- Per-instance resolution of one dotted path in the generic comparison: a
falsy or absent per-instance payload, or an absent path, give `undefined`. -/
def genericResolve (instanceData : List (String × JValue)) (path : String)
    (instanceId : String) : JValue :=
  let data := jsGet instanceData instanceId
  if jsTruthy data then getValueAtPath data path else JValue.undef

/-- `compareGenericData` of the source: one comparison unit per collected
dotted path, compared by `JSON.stringify` equality. -/
def compareGenericData (instanceData : List (String × JValue))
    (instanceIds : List String) (baseInstanceId : Option String) :
    List ComparisonResult :=
  (collectPaths (instanceData.map Prod.snd)).filterMap (fun path =>
    mkUnitResult serDiffers serDistinctCount false
      (genericResolve instanceData path) instanceIds baseInstanceId path
      (genericTemplates path))

/-- The per-instance `Map` from stringified identifier to record built by
`compareCustomArrayData`; records whose identifier stringifies to the empty
string (the only falsy string) are skipped. -/
def instItemMap (items : List JValue) (identifierField : String) :
    List (String × JValue) :=
  items.foldl (fun itemMap item =>
    let identifier := jsToString (jsIndex item identifierField)
    if identifier != "" then mapSet itemMap identifier item else itemMap) []

/-- The insertion-ordered union of all (truthy) stringified identifiers
across the instances (`allItemIds` of the source). -/
def customAllItemIds (instanceData : List (String × List JValue))
    (instanceIds : List String) (identifierField : String) : List String :=
  instanceIds.foldl (fun acc instanceId =>
    ((instanceData.lookup instanceId).getD []).foldl (fun acc item =>
      let identifier := jsToString (jsIndex item identifierField)
      if identifier != "" then insertUnique acc identifier else acc) acc) []

/-- Per-instance resolution of one item id in the custom array comparison:
the sub-object of only the configured comparison fields of the matched
record; `undefined` when the instance lacks the item, and also — the
source's `if (item)` truthiness test — when the stored item is itself a
falsy value (a primitive array element such as `0`, `""` or `false`, which
enters the identity map under the identifier `"undefined"` but is then
treated as missing). -/
def customArrayResolve (instanceData : List (String × List JValue))
    (ct : CustomComparisonType) (identifierField : String) (itemId : String)
    (instanceId : String) : JValue :=
  let itemMap := instItemMap ((instanceData.lookup instanceId).getD []) identifierField
  match itemMap.lookup itemId with
  | some item =>
      if jsTruthy item then
        .obj (ct.comparisonFields.map (fun field => (field, getValueAtPath item field)))
      else JValue.undef
  | none => JValue.undef

/-- `compareCustomArrayData` of the source: one comparison unit per item id
in the identifier union, compared by `JSON.stringify` equality of the
comparison-field sub-objects.  A custom type whose `identifierField` is
absent (or the empty string, the only falsy string) yields no results. -/
def compareCustomArrayData (instanceData : List (String × List JValue))
    (instanceIds : List String) (ct : CustomComparisonType)
    (baseInstanceId : Option String) : List ComparisonResult :=
  match ct.identifierField with
  | none => []
  | some identifierField =>
      if identifierField = "" then []
      else
        (customAllItemIds instanceData instanceIds identifierField).filterMap
          (fun itemId =>
            mkUnitResult serDiffers serDistinctCount false
              (customArrayResolve instanceData ct identifierField itemId)
              instanceIds baseInstanceId itemId
              (customArrayTemplates ct.label itemId))

/-- `compareCustomObjectData` of the source: one comparison unit per
configured field path, resolved and compared exactly like the generic
comparison. -/
def compareCustomObjectData (instanceData : List (String × JValue))
    (instanceIds : List String) (ct : CustomComparisonType)
    (baseInstanceId : Option String) : List ComparisonResult :=
  ct.comparisonFields.filterMap (fun fieldPath =>
    mkUnitResult serDiffers serDistinctCount false
      (genericResolve instanceData fieldPath) instanceIds baseInstanceId
      fieldPath (customObjectTemplates ct.label fieldPath))

/-- Truthiness of a per-instance payload (`if (instanceData[id])`): arrays
and objects are always truthy, other JSON values by `jsTruthy`. -/
def cdTruthy : ComparisonData → Bool
  | .toggles _ => true
  | .json v => jsTruthy v

/-- The runtime object shape of a feature-toggle record (used where the
dispatcher reinterprets payloads through unchecked casts). -/
def toggleToJValue (f : FeatureToggle) : JValue :=
  .obj [("FeatureName", .str f.FeatureName), ("CurrentValue", .bool f.CurrentValue)]

/-- The unchecked cast `instanceData[id] as FeatureToggle[]`: a payload that
is not a toggle array is a caller contract violation. -/
def asFeatureToggles : ComparisonData → List FeatureToggle
  | .toggles l => l
  | .json _ => []

/-- The unchecked cast `instanceData[id] as Record<string, unknown>[]`. -/
def asRecords : ComparisonData → List JValue
  | .toggles l => l.map toggleToJValue
  | .json (.arr elems) => elems
  | .json _ => []

/-- The unchecked cast `instanceData[id] as SettingsData | CodeTableData`. -/
def asJson : ComparisonData → JValue
  | .toggles l => .arr (l.map toggleToJValue)
  | .json v => v

/-- The `instanceIds.forEach(id => if (instanceData[id]) out[id] = cast(...))`
loops of `createComparisonSession`, building the per-mode data record. -/
def selectData {α : Type} (proj : ComparisonData → α)
    (instanceData : List (String × ComparisonData)) (instanceIds : List String) :
    List (String × α) :=
  instanceIds.filterMap (fun id =>
    match instanceData.lookup id with
    | some d => if cdTruthy d then some (id, proj d) else none
    | none => none)

/-- `state.baseInstanceId || undefined`: an empty-string base id is falsy and
is passed on as `undefined`. -/
def jsOrNone : Option String → Option String
  | some s => if s = "" then none else some s
  | none => none

/-- The mode dispatch of `createComparisonSession`: feature-toggle type,
custom type with truthy identifier field, custom type with comparison
fields, or the generic comparison. -/
def buildComparisonResults (st : ComparisonState) (instanceIds : List String)
    (instanceData : List (String × ComparisonData)) : List ComparisonResult :=
  let customType := st.customTypes.find? (fun t => t.id == st.comparisonType)
  let baseArg := jsOrNone st.baseInstanceId
  if st.comparisonType = "featureToggle" then
    compareFeatureToggles (selectData asFeatureToggles instanceData instanceIds)
      instanceIds baseArg
  else
    match customType with
    | some ct =>
        if strTruthy ct.identifierField then
          compareCustomArrayData (selectData asRecords instanceData instanceIds)
            instanceIds ct baseArg
        else if 0 < ct.comparisonFields.length then
          compareCustomObjectData (selectData asJson instanceData instanceIds)
            instanceIds ct baseArg
        else
          compareGenericData (selectData asJson instanceData instanceIds)
            instanceIds baseArg
    | none =>
        compareGenericData (selectData asJson instanceData instanceIds)
          instanceIds baseArg

/-- The summary computed over a result list. -/
def mkSummary (results : List ComparisonResult) : Summary :=
  { totalDifferences := results.length
    added := (results.filter (fun r => r.type == DiffType.added)).length
    deleted := (results.filter (fun r => r.type == DiffType.deleted)).length
    edited := (results.filter (fun r => r.type == DiffType.edited)).length }

/-- The `createComparisonSession` reducer.  Fewer than 2 instance ids set the
error message and leave the rest of the state untouched; otherwise the
dispatched comparison runs, and the new session is appended and becomes
active.  `Date.now().toString()` and `new Date().toISOString()` are modelled
as the `nowId` and `timestamp` parameters. -/
def createComparisonSession (st : ComparisonState) (name : String)
    (instanceIds : List String) (endpoint : String)
    (instanceData : List (String × ComparisonData)) (nowId timestamp : String) :
    ComparisonState :=
  if instanceIds.length < 2 then
    { st with error := some ("At least 2 instances are required for comparison") }
  else
    let results := buildComparisonResults st instanceIds instanceData
    let session : ComparisonSession :=
      { id := nowId
        name := name
        instanceIds := instanceIds
        endpoint := endpoint
        timestamp := timestamp
        results := results
        summary := mkSummary results }
    { st with
        sessions := st.sessions ++ [session]
        activeSessionId := some session.id }

/-- Code-point-lexicographic comparison of key characters (the canonical key
order of the spec-modelled canonical serialization). -/
def charListLE : List Char → List Char → Bool
  | [], _ => true
  | _ :: _, [] => false
  | c :: cs, d :: ds =>
      if c.toNat < d.toNat then true
      else if d.toNat < c.toNat then false
      else charListLE cs ds

/-- Insertion into a key-sorted field list (the sorting step of
`canonicalize`). -/
def insertByKeyOrder (p : String × JValue) : List (String × JValue) → List (String × JValue)
  | [] => [p]
  | q :: rest =>
      if charListLE p.1.data q.1.data then p :: q :: rest else q :: insertByKeyOrder p rest

mutual

/-- Recursively sort object keys (the canonicalization step of the canonical
serialization described by the specification). -/
def canonicalize : JValue → JValue
  | .obj fields => .obj ((canonicalizeFields fields).foldr insertByKeyOrder [])
  | .arr elems => .arr (canonicalizeElems elems)
  | v => v

/-- Canonicalize the values of an object's fields. -/
def canonicalizeFields : List (String × JValue) → List (String × JValue)
  | [] => []
  | (k, v) :: rest => (k, canonicalize v) :: canonicalizeFields rest

/-- Canonicalize the elements of an array. -/
def canonicalizeElems : List JValue → List JValue
  | [] => []
  | v :: rest => canonicalize v :: canonicalizeElems rest

end

/-- Modelled from the spec: the canonical, deterministic JSON serialization
(recursively sorted object keys, stable array order) that §4.4 and §9 of the
specification describe as the intended equality test.  The source itself has
no such function; it uses plain `JSON.stringify` (`jsonStringify`). -/
def canonicalStringify (v : JValue) : String := jsonStringify (canonicalize v)

/-! ### Association-list lemmas -/

theorem lookup_map_replace_ne {α : Type} (m : List (String × α)) (k k' : String) (v : α)
    (h : k' ≠ k) :
    (m.map (fun p => if p.1 == k then (k, v) else p)).lookup k' = m.lookup k' := by
  induction m with
  | nil => rfl
  | cons p rest ih =>
      obtain ⟨a, b⟩ := p
      simp only [List.map_cons]
      by_cases hak : (a == k) = true
      · rw [if_pos hak, List.lookup_cons, List.lookup_cons]
        have hk'a : (k' == a) = false :=
          beq_eq_false_iff_ne.mpr fun hee => h (hee.trans (eq_of_beq hak))
        have hk'k : (k' == k) = false := beq_eq_false_iff_ne.mpr h
        rw [hk'a, hk'k]
        exact ih
      · rw [if_neg hak, List.lookup_cons, List.lookup_cons]
        cases hka : k' == a
        · exact ih
        · rfl

theorem lookup_map_replace_eq {α : Type} (m : List (String × α)) (k : String) (v : α)
    (h : m.any (fun p => p.1 == k) = true) :
    (m.map (fun p => if p.1 == k then (k, v) else p)).lookup k = some v := by
  induction m with
  | nil => simp at h
  | cons p rest ih =>
      obtain ⟨a, b⟩ := p
      simp only [List.map_cons]
      by_cases hak : (a == k) = true
      · rw [if_pos hak, List.lookup_cons]
        rw [show (k == k) = true from beq_self_eq_true k]
      · rw [if_neg hak, List.lookup_cons]
        have hka : (k == a) = false :=
          beq_eq_false_iff_ne.mpr fun hee => hak (beq_iff_eq.mpr hee.symm)
        rw [hka]
        have hrest : rest.any (fun p => p.1 == k) = true := by
          rcases (List.any_eq_true).1 h with ⟨q, hq, hqk⟩
          rcases List.mem_cons.1 hq with rfl | hq'
          · exact absurd hqk hak
          · exact (List.any_eq_true).2 ⟨q, hq', hqk⟩
        exact ih hrest

theorem lookup_append_assoc {α : Type} (l₁ l₂ : List (String × α)) (k : String) :
    (l₁ ++ l₂).lookup k =
      match l₁.lookup k with
      | some v => some v
      | none => l₂.lookup k := by
  induction l₁ with
  | nil => rfl
  | cons p rest ih =>
      obtain ⟨a, b⟩ := p
      rw [List.cons_append, List.lookup_cons, List.lookup_cons]
      cases hka : k == a
      · exact ih
      · rfl

theorem lookup_eq_none_of_any_eq_false {α : Type} (m : List (String × α)) (k : String)
    (h : m.any (fun p => p.1 == k) = false) : m.lookup k = none := by
  induction m with
  | nil => rfl
  | cons p rest ih =>
      obtain ⟨a, b⟩ := p
      rw [List.any_cons, Bool.or_eq_false_iff] at h
      have hka : (k == a) = false :=
        beq_eq_false_iff_ne.mpr fun hee => by
          rw [show ((a, b).1 == k) = true from beq_iff_eq.mpr hee.symm] at h
          exact absurd h.1 (by simp)
      rw [List.lookup_cons, hka]
      exact ih h.2

theorem lookup_mapSet {α : Type} (m : List (String × α)) (k k' : String) (v : α) :
    (mapSet m k v).lookup k' = if k' = k then some v else m.lookup k' := by
  unfold mapSet
  by_cases hany : m.any (fun p => p.1 == k) = true
  · rw [if_pos hany]
    by_cases hkk : k' = k
    · subst hkk; rw [if_pos rfl, lookup_map_replace_eq m k' v hany]
    · rw [if_neg hkk, lookup_map_replace_ne m k k' v hkk]
  · have hanyf : m.any (fun p => p.1 == k) = false := by
      cases hb : m.any (fun p => p.1 == k)
      · rfl
      · exact absurd hb hany
    rw [if_neg hany, lookup_append_assoc]
    by_cases hkk : k' = k
    · subst hkk
      rw [lookup_eq_none_of_any_eq_false m k' hanyf, if_pos rfl, List.lookup_cons,
        show (k' == k') = true from beq_self_eq_true k']
    · rw [if_neg hkk]
      cases hl : m.lookup k'
      · rw [List.lookup_cons, show (k' == k) = false from beq_eq_false_iff_ne.mpr hkk]
        rfl
      · rfl

theorem mem_mapSet {α : Type} (m : List (String × α)) (k : String) (v : α)
    (p : String × α) (h : p ∈ mapSet m k v) : p = (k, v) ∨ p ∈ m := by
  unfold mapSet at h
  by_cases hany : m.any (fun q => q.1 == k) = true
  · rw [if_pos hany] at h
    obtain ⟨q, hq, hrepl⟩ := List.mem_map.1 h
    by_cases hqk : (q.1 == k) = true
    · rw [if_pos hqk] at hrepl; exact Or.inl hrepl.symm
    · rw [if_neg hqk] at hrepl; exact Or.inr (hrepl ▸ hq)
  · rw [if_neg hany] at h
    rcases List.mem_append.1 h with h | h
    · exact Or.inr h
    · exact Or.inl (by simpa using h)

theorem mem_of_lookup_eq_some {α : Type} (l : List (String × α)) (k : String) (v : α)
    (h : l.lookup k = some v) : (k, v) ∈ l := by
  induction l with
  | nil => simp [List.lookup] at h
  | cons p rest ih =>
      obtain ⟨a, b⟩ := p
      rw [List.lookup_cons] at h
      cases hka : k == a with
      | true =>
          rw [hka] at h
          have : b = v := by simpa using h
          have hk : k = a := by simpa using hka
          subst hk; subst this; exact List.mem_cons_self _ _
      | false =>
          rw [hka] at h
          exact List.mem_cons_of_mem _ (ih h)

/-! ### `unitValues` lemmas -/

theorem unitEntry_ne_undef (resolve : String → JValue) (id : String) :
    unitEntry resolve id ≠ .undef := by
  unfold unitEntry
  split
  · next h => exact bne_iff_ne.1 h
  · exact fun h => JValue.noConfusion h

theorem jsGet_mapSet (m : List (String × JValue)) (k k' : String) (v : JValue) :
    jsGet (mapSet m k v) k' = if k' = k then v else jsGet m k' := by
  unfold jsGet
  rw [lookup_mapSet]
  by_cases h : k' = k <;> simp [h]

theorem jsGet_foldl_mapSet (resolve : String → JValue) (ids : List String)
    (acc : List (String × JValue)) (id : String) :
    jsGet (ids.foldl (fun vals i => mapSet vals i (unitEntry resolve i)) acc) id =
      if id ∈ ids then unitEntry resolve id else jsGet acc id := by
  induction ids generalizing acc with
  | nil => simp
  | cons x rest ih =>
      simp only [List.foldl_cons, ih, List.mem_cons]
      by_cases hr : id ∈ rest
      · simp [hr]
      · by_cases hx : id = x
        · subst hx; simp [hr, jsGet_mapSet]
        · simp [hr, hx, jsGet_mapSet]

theorem jsGet_unitValues (resolve : String → JValue) (ids : List String) (id : String) :
    jsGet (unitValues resolve ids) id =
      if id ∈ ids then unitEntry resolve id else .undef := by
  have h := jsGet_foldl_mapSet resolve ids [] id
  simpa [unitValues, jsGet] using h

theorem mem_foldl_mapSet (resolve : String → JValue) (ids : List String)
    (acc : List (String × JValue)) (p : String × JValue)
    (h : p ∈ ids.foldl (fun vals i => mapSet vals i (unitEntry resolve i)) acc) :
    p ∈ acc ∨ ∃ id ∈ ids, p = (id, unitEntry resolve id) := by
  induction ids generalizing acc with
  | nil => exact Or.inl h
  | cons x rest ih =>
      rcases ih (mapSet acc x (unitEntry resolve x)) h with h' | ⟨id, hid, hp⟩
      · rcases mem_mapSet _ _ _ _ h' with h'' | h''
        · exact Or.inr ⟨x, List.mem_cons_self _ _, h''⟩
        · exact Or.inl h''
      · exact Or.inr ⟨id, List.mem_cons_of_mem _ hid, hp⟩

theorem mem_unitValues (resolve : String → JValue) (ids : List String)
    (p : String × JValue) (h : p ∈ unitValues resolve ids) :
    ∃ id ∈ ids, p = (id, unitEntry resolve id) := by
  rcases mem_foldl_mapSet resolve ids [] p h with h' | h'
  · simp at h'
  · exact h'

theorem entry_mem_unitValues (resolve : String → JValue) (ids : List String)
    (id : String) (h : id ∈ ids) :
    (id, unitEntry resolve id) ∈ unitValues resolve ids := by
  have hg : jsGet (unitValues resolve ids) id = unitEntry resolve id := by
    rw [jsGet_unitValues]; simp [h]
  have hne := unitEntry_ne_undef resolve id
  unfold jsGet at hg
  cases hl : (unitValues resolve ids).lookup id with
  | none => rw [hl] at hg; exact absurd hg.symm hne
  | some w =>
      rw [hl] at hg
      exact hg ▸ mem_of_lookup_eq_some _ _ _ hl

theorem entry_mem_unitValues_snd (resolve : String → JValue) (ids : List String)
    (id : String) (h : id ∈ ids) :
    unitEntry resolve id ∈ (unitValues resolve ids).map Prod.snd :=
  List.mem_map.2 ⟨(id, unitEntry resolve id), entry_mem_unitValues resolve ids id h, rfl⟩

theorem foldl_mapSet_eq_append (resolve : String → JValue) (ids : List String)
    (acc : List (String × JValue)) (hnd : ids.Nodup)
    (hacc : ∀ id ∈ ids, acc.any (fun p => p.1 == id) = false) :
    ids.foldl (fun vals i => mapSet vals i (unitEntry resolve i)) acc =
      acc ++ ids.map (fun id => (id, unitEntry resolve id)) := by
  induction ids generalizing acc with
  | nil => simp
  | cons x rest ih =>
      have hset : mapSet acc x (unitEntry resolve x) = acc ++ [(x, unitEntry resolve x)] := by
        unfold mapSet
        rw [if_neg (by simp [hacc x (List.mem_cons_self _ _)])]
      rw [List.foldl_cons, hset,
        ih (acc ++ [(x, unitEntry resolve x)]) (List.Nodup.of_cons hnd) ?_]
      · simp
      · intro id hid
        have h1 := hacc id (List.mem_cons_of_mem _ hid)
        have hx : x ≠ id := fun hxe => (List.nodup_cons.1 hnd).1 (hxe ▸ hid)
        simp [List.any_append, h1, hx]

theorem unitValues_eq_map (resolve : String → JValue) (ids : List String)
    (hnd : ids.Nodup) :
    unitValues resolve ids = ids.map (fun id => (id, unitEntry resolve id)) := by
  have h := foldl_mapSet_eq_append resolve ids [] hnd (by intro id _; rfl)
  simpa [unitValues] using h

/-! ### Dedup and filter lemmas -/

theorem dedup_length_le_one_iff {α : Type} [DecidableEq α] (l : List α) :
    l.dedup.length ≤ 1 ↔ ∀ a ∈ l, ∀ b ∈ l, a = b := by
  constructor
  · intro h a ha b hb
    have ha' : a ∈ l.dedup := List.mem_dedup.2 ha
    have hb' : b ∈ l.dedup := List.mem_dedup.2 hb
    rcases hd : l.dedup with _ | ⟨x, _ | ⟨y, t⟩⟩
    · rw [hd] at ha'; exact absurd ha' (List.not_mem_nil a)
    · rw [hd] at ha' hb'
      simp only [List.mem_singleton] at ha' hb'
      rw [ha', hb']
    · rw [hd] at h; simp at h
  · intro h
    cases l with
    | nil => simp
    | cons x rest =>
        have hall : ∀ b ∈ (x :: rest).dedup, b = x := fun b hb =>
          h b (List.mem_dedup.1 hb) x (List.mem_cons_self x rest)
        have hnd := List.nodup_dedup (x :: rest)
        rcases hd : (x :: rest).dedup with _ | ⟨a, _ | ⟨b, t⟩⟩
        · simp
        · simp
        · exfalso
          rw [hd] at hall hnd
          have ha := hall a (by simp)
          have hb := hall b (by simp)
          rw [List.nodup_cons] at hnd
          exact hnd.1 (by rw [ha, hb]; exact List.mem_cons_self _ _)

theorem one_lt_dedup_length {α : Type} [DecidableEq α] {l : List α} {a b : α}
    (ha : a ∈ l) (hb : b ∈ l) (hab : a ≠ b) : 1 < l.dedup.length := by
  by_contra h
  push_neg at h
  exact hab ((dedup_length_le_one_iff l).1 h a ha b hb)

theorem dedup_length_le_one_of_all_eq {α : Type} [DecidableEq α] {l : List α} {s : α}
    (h : ∀ a ∈ l, a = s) : l.dedup.length ≤ 1 :=
  (dedup_length_le_one_iff l).2 fun a ha b hb => (h a ha).trans (h b hb).symm

theorem length_filter_ne_of_mem {α : Type} (p : α → Bool) (l : List α) (x : α)
    (hx : x ∈ l) (hp : p x = false) : (l.filter p).length ≠ l.length :=
  Nat.ne_of_lt (List.length_filter_lt_length_iff_exists.2 ⟨x, hx, by simp [hp]⟩)

/-! ### Serialization lemmas -/

theorem jsonStringify_obj_ne_str (fields : List (String × JValue)) (s : String) :
    jsonStringify (.obj fields) ≠ jsonStringify (.str s) := by
  intro h
  have hd : jsonStringifyChars (.obj fields) = jsonStringifyChars (.str s) :=
    congrArg String.data h
  rw [jsonStringifyChars, jsonStringifyChars] at hd
  simp at hd

/-! ### Classification and counting lemmas -/

theorem classifyType_ne_unchanged (values : List (String × JValue))
    (instanceIds : List String) (baseId : Option String) :
    classifyType values instanceIds baseId ≠ DiffType.unchanged := by
  simp only [classifyType]
  repeat' split
  all_goals exact fun hcontra => DiffType.noConfusion hcontra

theorem length_eq_counts (l : List ComparisonResult)
    (h : ∀ r ∈ l, r.type ≠ DiffType.unchanged) :
    l.length = (l.filter (fun r => r.type == DiffType.added)).length
      + (l.filter (fun r => r.type == DiffType.deleted)).length
      + (l.filter (fun r => r.type == DiffType.edited)).length := by
  induction l with
  | nil => rfl
  | cons r rest ih =>
      have hr := h r (List.mem_cons_self _ _)
      have hrest := ih fun x hx => h x (List.mem_cons_of_mem _ hx)
      cases ht : r.type with
      | added => simp only [List.length_cons, hrest, List.filter_cons, ht]; simp; omega
      | deleted => simp only [List.length_cons, hrest, List.filter_cons, ht]; simp; omega
      | edited => simp only [List.length_cons, hrest, List.filter_cons, ht]; simp; omega
      | unchanged => exact absurd ht hr

/-! ### `mkUnitResult` lemmas -/

theorem mkUnitResult_eq_some {differs : JValue → JValue → Bool}
    {distinctCount : List JValue → Nat} {alsoIfPartial : Bool}
    {resolve : String → JValue} {instanceIds : List String} {baseId : Option String}
    {path : String} {tmpl : DescTemplates} {r : ComparisonResult}
    (h : mkUnitResult differs distinctCount alsoIfPartial resolve instanceIds baseId
      path tmpl = some r) :
    r.path = path ∧
    r.type = classifyType (unitValues resolve instanceIds) instanceIds baseId ∧
    r.values = unitValues resolve instanceIds ∧
    r.affectedInstances = unitAffected resolve instanceIds := by
  simp only [mkUnitResult] at h
  split at h
  · injection h with h'
    subst h'
    exact ⟨rfl, rfl, rfl, rfl⟩
  · cases h

theorem mkUnitResult_emit {differs : JValue → JValue → Bool}
    {distinctCount : List JValue → Nat} {alsoIfPartial : Bool}
    {resolve : String → JValue} {instanceIds : List String} {baseId : Option String}
    {path : String} {tmpl : DescTemplates}
    (h : unitHasDifference differs distinctCount resolve instanceIds baseId
        (unitValues resolve instanceIds) = true) :
    ∃ r, mkUnitResult differs distinctCount alsoIfPartial resolve instanceIds baseId
        path tmpl = some r ∧ r.path = path := by
  simp only [mkUnitResult, h, Bool.true_or, if_true]
  exact ⟨_, rfl, rfl⟩

theorem mkUnitResult_emitPartial {differs : JValue → JValue → Bool}
    {distinctCount : List JValue → Nat} {resolve : String → JValue}
    {instanceIds : List String} {baseId : Option String} {path : String}
    {tmpl : DescTemplates}
    (h : (unitAffected resolve instanceIds).length ≠ instanceIds.length) :
    ∃ r, mkUnitResult differs distinctCount true resolve instanceIds baseId
        path tmpl = some r ∧ r.path = path := by
  have hb : ((unitAffected resolve instanceIds).length != instanceIds.length) = true := by
    simpa using h
  simp only [mkUnitResult, hb, Bool.true_and, Bool.or_true, if_true]
  exact ⟨_, rfl, rfl⟩

theorem mkUnitResult_none {differs : JValue → JValue → Bool}
    {distinctCount : List JValue → Nat} {resolve : String → JValue}
    {instanceIds : List String} {baseId : Option String} {path : String}
    {tmpl : DescTemplates}
    (h : unitHasDifference differs distinctCount resolve instanceIds baseId
        (unitValues resolve instanceIds) = false) :
    mkUnitResult differs distinctCount false resolve instanceIds baseId
      path tmpl = none := by
  simp [mkUnitResult, h]

/-! ### Membership in the four comparison functions -/

theorem mem_compareFeatureToggles {instanceData : List (String × List FeatureToggle)}
    {instanceIds : List String} {baseInstanceId : Option String} {r : ComparisonResult}
    (h : r ∈ compareFeatureToggles instanceData instanceIds baseInstanceId) :
    ∃ featureName ∈ allFeatureNames instanceData instanceIds,
      mkUnitResult rawDiffers rawDistinctCount true
        (toggleResolve instanceData featureName) instanceIds baseInstanceId
        featureName (toggleTemplates featureName) = some r :=
  List.mem_filterMap.1 h

theorem mem_compareGenericData {instanceData : List (String × JValue)}
    {instanceIds : List String} {baseInstanceId : Option String} {r : ComparisonResult}
    (h : r ∈ compareGenericData instanceData instanceIds baseInstanceId) :
    ∃ path ∈ collectPaths (instanceData.map Prod.snd),
      mkUnitResult serDiffers serDistinctCount false
        (genericResolve instanceData path) instanceIds baseInstanceId path
        (genericTemplates path) = some r :=
  List.mem_filterMap.1 h

theorem mem_compareCustomArrayData {instanceData : List (String × List JValue)}
    {instanceIds : List String} {ct : CustomComparisonType}
    {baseInstanceId : Option String} {r : ComparisonResult}
    (h : r ∈ compareCustomArrayData instanceData instanceIds ct baseInstanceId) :
    ∃ identifierField, ct.identifierField = some identifierField ∧
      identifierField ≠ "" ∧
      ∃ itemId ∈ customAllItemIds instanceData instanceIds identifierField,
        mkUnitResult serDiffers serDistinctCount false
          (customArrayResolve instanceData ct identifierField itemId)
          instanceIds baseInstanceId itemId
          (customArrayTemplates ct.label itemId) = some r := by
  unfold compareCustomArrayData at h
  split at h
  · cases h
  · next identifierField hf =>
      split at h
      · cases h
      · next hne =>
          obtain ⟨itemId, hmem, hstep⟩ := List.mem_filterMap.1 h
          exact ⟨identifierField, hf, hne, itemId, hmem, hstep⟩

theorem mem_compareCustomObjectData {instanceData : List (String × JValue)}
    {instanceIds : List String} {ct : CustomComparisonType}
    {baseInstanceId : Option String} {r : ComparisonResult}
    (h : r ∈ compareCustomObjectData instanceData instanceIds ct baseInstanceId) :
    ∃ fieldPath ∈ ct.comparisonFields,
      mkUnitResult serDiffers serDistinctCount false
        (genericResolve instanceData fieldPath) instanceIds baseInstanceId
        fieldPath (customObjectTemplates ct.label fieldPath) = some r :=
  List.mem_filterMap.1 h

theorem compareFeatureToggles_ne_unchanged {instanceData : List (String × List FeatureToggle)}
    {instanceIds : List String} {baseInstanceId : Option String} {r : ComparisonResult}
    (h : r ∈ compareFeatureToggles instanceData instanceIds baseInstanceId) :
    r.type ≠ DiffType.unchanged := by
  obtain ⟨u, _, hstep⟩ := mem_compareFeatureToggles h
  rw [(mkUnitResult_eq_some hstep).2.1]
  exact classifyType_ne_unchanged _ _ _

theorem compareGenericData_ne_unchanged {instanceData : List (String × JValue)}
    {instanceIds : List String} {baseInstanceId : Option String} {r : ComparisonResult}
    (h : r ∈ compareGenericData instanceData instanceIds baseInstanceId) :
    r.type ≠ DiffType.unchanged := by
  obtain ⟨u, _, hstep⟩ := mem_compareGenericData h
  rw [(mkUnitResult_eq_some hstep).2.1]
  exact classifyType_ne_unchanged _ _ _

theorem compareCustomArrayData_ne_unchanged {instanceData : List (String × List JValue)}
    {instanceIds : List String} {ct : CustomComparisonType}
    {baseInstanceId : Option String} {r : ComparisonResult}
    (h : r ∈ compareCustomArrayData instanceData instanceIds ct baseInstanceId) :
    r.type ≠ DiffType.unchanged := by
  obtain ⟨f, _, _, u, _, hstep⟩ := mem_compareCustomArrayData h
  rw [(mkUnitResult_eq_some hstep).2.1]
  exact classifyType_ne_unchanged _ _ _

theorem compareCustomObjectData_ne_unchanged {instanceData : List (String × JValue)}
    {instanceIds : List String} {ct : CustomComparisonType}
    {baseInstanceId : Option String} {r : ComparisonResult}
    (h : r ∈ compareCustomObjectData instanceData instanceIds ct baseInstanceId) :
    r.type ≠ DiffType.unchanged := by
  obtain ⟨u, _, hstep⟩ := mem_compareCustomObjectData h
  rw [(mkUnitResult_eq_some hstep).2.1]
  exact classifyType_ne_unchanged _ _ _

theorem buildComparisonResults_ne_unchanged {st : ComparisonState}
    {instanceIds : List String} {instanceData : List (String × ComparisonData)}
    {r : ComparisonResult}
    (h : r ∈ buildComparisonResults st instanceIds instanceData) :
    r.type ≠ DiffType.unchanged := by
  simp only [buildComparisonResults] at h
  split at h
  · exact compareFeatureToggles_ne_unchanged h
  · split at h
    · split at h
      · exact compareCustomArrayData_ne_unchanged h
      · split at h
        · exact compareCustomObjectData_ne_unchanged h
        · exact compareGenericData_ne_unchanged h
    · exact compareGenericData_ne_unchanged h

/-! ### `unitHasDifference` lemmas -/

theorem unitHasDifference_base_of_missing (differs : JValue → JValue → Bool)
    (distinctCount : List JValue → Nat) (resolve : String → JValue)
    (instanceIds : List String) (b : String) (hb : b ≠ "")
    (hbm : b ∈ instanceIds) (hbv : resolve b ≠ .undef) (c : String)
    (hc : c ∈ instanceIds) (hcb : c ≠ b)
    (hcv : jsGet (unitValues resolve instanceIds) c = .str ("MISSING")) :
    unitHasDifference differs distinctCount resolve instanceIds (some b)
      (unitValues resolve instanceIds) = true := by
  unfold unitHasDifference
  rw [if_pos (show (strTruthy (some b) && hasBaseValue resolve instanceIds (some b)) = true
    by simp [strTruthy, hasBaseValue, hb, hbv, hbm])]
  refine (List.any_eq_true).2 ⟨c, hc, ?_⟩
  have h1 : (some c != some b) = true := by simp [hcb]
  have h2 : (jsGet (unitValues resolve instanceIds) c == JValue.str ("MISSING")) = true := by
    rw [hcv]
    exact beq_self_eq_true _
  simp [h1, h2]

theorem unitHasDifference_symm_eq (differs : JValue → JValue → Bool)
    (distinctCount : List JValue → Nat) (resolve : String → JValue)
    (instanceIds : List String) (baseId : Option String)
    (values : List (String × JValue))
    (hbase : (strTruthy baseId && hasBaseValue resolve instanceIds baseId) = false) :
    unitHasDifference differs distinctCount resolve instanceIds baseId values =
      decide (1 < distinctCount (values.map Prod.snd)) := by
  unfold unitHasDifference
  rw [if_neg (by simp [hbase])]

/-! ### Claim theorems -/

/-- C1: for every comparison run of `createComparisonSession` with at least 2
instance ids (any comparison mode, any payloads, with or without a base
instance), exactly one session is appended and its summary satisfies
`totalDifferences = added + deleted + edited`, each count equals the number of
emitted results whose type is that kind, and no emitted result has type
`unchanged`. -/
theorem c1_summary_invariant (st : ComparisonState) (name endpoint nowId ts : String)
    (instanceIds : List String) (instanceData : List (String × ComparisonData))
    (h : 2 ≤ instanceIds.length) :
    ∃ s : ComparisonSession,
      (createComparisonSession st name instanceIds endpoint instanceData nowId ts).sessions
        = st.sessions ++ [s] ∧
      s.summary.totalDifferences = s.results.length ∧
      s.summary.totalDifferences = s.summary.added + s.summary.deleted + s.summary.edited ∧
      s.summary.added = (s.results.filter (fun r => r.type == DiffType.added)).length ∧
      s.summary.deleted = (s.results.filter (fun r => r.type == DiffType.deleted)).length ∧
      s.summary.edited = (s.results.filter (fun r => r.type == DiffType.edited)).length ∧
      ∀ r ∈ s.results, r.type ≠ DiffType.unchanged := by
  have hlt : ¬ instanceIds.length < 2 := by omega
  simp only [createComparisonSession, if_neg hlt]
  refine ⟨_, rfl, rfl, ?_, rfl, rfl, rfl, ?_⟩
  · exact length_eq_counts _ fun r hr => buildComparisonResults_ne_unchanged hr
  · exact fun r hr => buildComparisonResults_ne_unchanged hr

/-- Witness for C1 at a concrete two-instance generic run. -/
theorem c1_witness :
    2 ≤ (["a", "b"] : List String).length ∧
    ∃ s : ComparisonSession,
      (createComparisonSession initialComparisonState ("n") ["a", "b"] ("/api/settings")
          [("a", .json (.obj [("x", .num 1)])), ("b", .json (.obj [("x", .num 2)]))]
          ("1") ("t")).sessions
        = initialComparisonState.sessions ++ [s] ∧
      s.summary.totalDifferences = s.results.length ∧
      s.summary.totalDifferences = s.summary.added + s.summary.deleted + s.summary.edited ∧
      s.summary.added = (s.results.filter (fun r => r.type == DiffType.added)).length ∧
      s.summary.deleted = (s.results.filter (fun r => r.type == DiffType.deleted)).length ∧
      s.summary.edited = (s.results.filter (fun r => r.type == DiffType.edited)).length ∧
      ∀ r ∈ s.results, r.type ≠ DiffType.unchanged :=
  ⟨by decide,
    c1_summary_invariant initialComparisonState ("n") ("/api/settings") ("1") ("t")
      ["a", "b"]
      [("a", .json (.obj [("x", .num 1)])), ("b", .json (.obj [("x", .num 2)]))]
      (by decide)⟩

/-- C6: fewer than 2 instance ids reject the run as a validation error with no
other state change (the error message is set, no session is created, the
sessions list and the active session id are unchanged); at least 2 instance
ids append exactly one new session, which becomes active, leaving the error
field untouched. -/
theorem c6_min_instance_guard (st : ComparisonState) (name endpoint nowId ts : String)
    (instanceIds : List String) (instanceData : List (String × ComparisonData)) :
    (instanceIds.length < 2 →
      createComparisonSession st name instanceIds endpoint instanceData nowId ts =
        { st with error := some ("At least 2 instances are required for comparison") } ∧
      (createComparisonSession st name instanceIds endpoint instanceData nowId ts).sessions
        = st.sessions ∧
      (createComparisonSession st name instanceIds endpoint instanceData nowId ts).activeSessionId
        = st.activeSessionId) ∧
    (2 ≤ instanceIds.length →
      ∃ s : ComparisonSession,
        (createComparisonSession st name instanceIds endpoint instanceData nowId ts).sessions
          = st.sessions ++ [s] ∧
        (createComparisonSession st name instanceIds endpoint instanceData nowId ts).activeSessionId
          = some s.id ∧
        (createComparisonSession st name instanceIds endpoint instanceData nowId ts).error
          = st.error) := by
  constructor
  · intro hlt
    simp [createComparisonSession, if_pos hlt]
  · intro hge
    have hlt : ¬ instanceIds.length < 2 := by omega
    simp only [createComparisonSession, if_neg hlt]
    exact ⟨_, rfl, rfl, trivial⟩

/-- Witness for C6: a one-instance run is rejected with only the error field
set, and a two-instance run appends one active session. -/
theorem c6_witness :
    (createComparisonSession initialComparisonState ("n") ["only"] ("/e") [] ("1") ("t") =
        { initialComparisonState with
            error := some ("At least 2 instances are required for comparison") } ∧
      (createComparisonSession initialComparisonState ("n") ["only"] ("/e") [] ("1") ("t")).sessions
        = initialComparisonState.sessions ∧
      (createComparisonSession initialComparisonState ("n") ["only"] ("/e") [] ("1") ("t")).activeSessionId
        = initialComparisonState.activeSessionId) ∧
    (∃ s : ComparisonSession,
      (createComparisonSession initialComparisonState ("n") ["a", "b"] ("/e") [] ("1") ("t")).sessions
        = initialComparisonState.sessions ++ [s] ∧
      (createComparisonSession initialComparisonState ("n") ["a", "b"] ("/e") [] ("1") ("t")).activeSessionId
        = some s.id ∧
      (createComparisonSession initialComparisonState ("n") ["a", "b"] ("/e") [] ("1") ("t")).error
        = initialComparisonState.error) :=
  ⟨(c6_min_instance_guard initialComparisonState ("n") ("/e") ("1") ("t") ["only"] []).1
      (by decide),
    (c6_min_instance_guard initialComparisonState ("n") ("/e") ("1") ("t") ["a", "b"] []).2
      (by decide)⟩

/-- C5: in no-base mode, every emitted generic result with partial presence
(both `missingInstances` and `presentInstances` non-empty) is classified
`added` exactly when the missing count is strictly below the present count,
and `deleted` otherwise; in particular a tie is classified `deleted`. -/
theorem c5_no_base_tie_break (instanceData : List (String × JValue))
    (instanceIds : List String) (r : ComparisonResult)
    (hr : r ∈ compareGenericData instanceData instanceIds none)
    (hm : 0 < (instanceIds.filter
      (fun id => jsGet r.values id == JValue.str ("MISSING"))).length)
    (hp : 0 < (instanceIds.filter
      (fun id => jsGet r.values id != JValue.str ("MISSING"))).length) :
    (r.type = DiffType.added ↔
      (instanceIds.filter (fun id => jsGet r.values id == JValue.str ("MISSING"))).length <
        (instanceIds.filter (fun id => jsGet r.values id != JValue.str ("MISSING"))).length) ∧
    (¬ (instanceIds.filter (fun id => jsGet r.values id == JValue.str ("MISSING"))).length <
        (instanceIds.filter (fun id => jsGet r.values id != JValue.str ("MISSING"))).length →
      r.type = DiffType.deleted) := by
  obtain ⟨path, hpmem, hstep⟩ := mem_compareGenericData hr
  obtain ⟨hpath, htype, hvals, haff⟩ := mkUnitResult_eq_some hstep
  rw [hvals] at hm hp ⊢
  rw [htype]
  simp only [classifyType]
  rw [if_pos (And.intro hm hp)]
  by_cases hlt :
    (instanceIds.filter (fun id =>
      jsGet (unitValues (genericResolve instanceData path) instanceIds) id
        == JValue.str ("MISSING"))).length <
    (instanceIds.filter (fun id =>
      jsGet (unitValues (genericResolve instanceData path) instanceIds) id
        != JValue.str ("MISSING"))).length
  · rw [if_pos hlt]
    exact ⟨⟨fun _ => hlt, fun _ => rfl⟩, fun hn => absurd hlt hn⟩
  · rw [if_neg hlt]
    exact ⟨⟨fun hco => absurd hco.symm (fun h => DiffType.noConfusion h),
      fun hco => absurd hco hlt⟩, fun _ => rfl⟩

/-- Witness for C5 at a concrete tie (one missing, one present): the emitted
result is classified `deleted`. -/
theorem c5_witness :
    ({ path := "x", type := DiffType.deleted,
       values := [("a", JValue.num 1), ("b", JValue.str ("MISSING"))],
       affectedInstances := ["a"],
       description := "Setting at \"x\" deleted in 1 instance(s), present in 1" }
        : ComparisonResult) ∈
      compareGenericData [("a", .obj [("x", .num 1)]), ("b", .obj [])] ["a", "b"] none ∧
    ({ path := "x", type := DiffType.deleted,
       values := [("a", JValue.num 1), ("b", JValue.str ("MISSING"))],
       affectedInstances := ["a"],
       description := "Setting at \"x\" deleted in 1 instance(s), present in 1" }
        : ComparisonResult).type = DiffType.deleted :=
  ⟨by decide,
    (c5_no_base_tie_break [("a", .obj [("x", .num 1)]), ("b", .obj [])] ["a", "b"]
      { path := "x", type := DiffType.deleted,
        values := [("a", JValue.num 1), ("b", JValue.str ("MISSING"))],
        affectedInstances := ["a"],
        description := "Setting at \"x\" deleted in 1 instance(s), present in 1" }
      (by decide) (by decide) (by decide)).2 (by decide)⟩

/-- C10: in generic-object mode every intermediate object path is itself a
comparison unit: for two instances differing at the single nested leaf `a.x`,
`compareGenericData` reports both the leaf path and its ancestor `a`, so the
summary counts two differences for one differing leaf. -/
theorem c10_ancestor_paths :
    ((compareGenericData
        [("i1", .obj [("a", .obj [("x", .num 1)])]),
          ("i2", .obj [("a", .obj [("x", .num 2)])])]
        ["i1", "i2"] none).map (fun r => r.path) = ["a", "a.x"]) ∧
    (mkSummary (compareGenericData
        [("i1", .obj [("a", .obj [("x", .num 1)])]),
          ("i2", .obj [("a", .obj [("x", .num 2)])])]
        ["i1", "i2"] none)).totalDifferences = 2 := by decide

/-- The per-result shape property of the amended claim C2: `values` has
exactly one entry per instance id, in declared order, each entry being the
resolved present value or the `MISSING` sentinel for an absent one;
`affectedInstances` is exactly the instance ids whose resolved value is
present, in declared order; and whenever no resolved value is itself the
literal string `"MISSING"`, `affectedInstances` coincides with the ids whose
`values` entry differs from the sentinel. -/
def ValuesShape (r : ComparisonResult) (instanceIds : List String) : Prop :=
  ∃ resolve : String → JValue,
    r.values = instanceIds.map (fun id => (id, unitEntry resolve id)) ∧
    r.affectedInstances = instanceIds.filter (fun id => resolve id != JValue.undef) ∧
    ((∀ id ∈ instanceIds, resolve id ≠ JValue.str ("MISSING")) →
      r.affectedInstances = instanceIds.filter
        (fun id => jsGet r.values id != JValue.str ("MISSING")))

theorem valuesShape_of_mkUnitResult {differs : JValue → JValue → Bool}
    {distinctCount : List JValue → Nat} {alsoIfPartial : Bool}
    {resolve : String → JValue} {instanceIds : List String} {baseId : Option String}
    {path : String} {tmpl : DescTemplates} {r : ComparisonResult}
    (h : mkUnitResult differs distinctCount alsoIfPartial resolve instanceIds baseId
      path tmpl = some r) (hnd : instanceIds.Nodup) :
    ValuesShape r instanceIds := by
  obtain ⟨hpath, htype, hvals, haff⟩ := mkUnitResult_eq_some h
  refine ⟨resolve, ?_, ?_, ?_⟩
  · rw [hvals, unitValues_eq_map resolve instanceIds hnd]
  · rw [haff]; rfl
  · intro hnm
    rw [haff, hvals]
    unfold unitAffected
    apply List.filter_congr
    intro id hid
    rw [jsGet_unitValues, if_pos hid]
    by_cases hres : resolve id = JValue.undef
    · simp [unitEntry, hres]
    · have h1 : (resolve id != JValue.undef) = true := bne_iff_ne.mpr hres
      have h2 : (resolve id != JValue.str ("MISSING")) = true := bne_iff_ne.mpr (hnm id hid)
      simp [unitEntry, h1, h2]

/-- C2 (amended): for every emitted result in every comparison mode (with the
instance ids unique, as the data model requires), the `values` map has exactly
one entry per instance id in declared order, every entry is either the
resolved present value or the `MISSING` sentinel, and `affectedInstances` is
exactly the ids whose resolved value is present, in input order; the latter
coincides with the ids whose `values` entry is not the sentinel except when a
present value is itself the literal string `"MISSING"`. -/
theorem c2_values_completeness :
    (∀ (instanceData : List (String × List FeatureToggle)) (instanceIds : List String)
        (baseInstanceId : Option String) (r : ComparisonResult), instanceIds.Nodup →
        r ∈ compareFeatureToggles instanceData instanceIds baseInstanceId →
        ValuesShape r instanceIds) ∧
    (∀ (instanceData : List (String × JValue)) (instanceIds : List String)
        (baseInstanceId : Option String) (r : ComparisonResult), instanceIds.Nodup →
        r ∈ compareGenericData instanceData instanceIds baseInstanceId →
        ValuesShape r instanceIds) ∧
    (∀ (instanceData : List (String × List JValue)) (instanceIds : List String)
        (ct : CustomComparisonType) (baseInstanceId : Option String)
        (r : ComparisonResult), instanceIds.Nodup →
        r ∈ compareCustomArrayData instanceData instanceIds ct baseInstanceId →
        ValuesShape r instanceIds) ∧
    (∀ (instanceData : List (String × JValue)) (instanceIds : List String)
        (ct : CustomComparisonType) (baseInstanceId : Option String)
        (r : ComparisonResult), instanceIds.Nodup →
        r ∈ compareCustomObjectData instanceData instanceIds ct baseInstanceId →
        ValuesShape r instanceIds) := by
  refine ⟨?_, ?_, ?_, ?_⟩
  · intro instanceData instanceIds baseInstanceId r hnd hr
    obtain ⟨u, _, hstep⟩ := mem_compareFeatureToggles hr
    exact valuesShape_of_mkUnitResult hstep hnd
  · intro instanceData instanceIds baseInstanceId r hnd hr
    obtain ⟨u, _, hstep⟩ := mem_compareGenericData hr
    exact valuesShape_of_mkUnitResult hstep hnd
  · intro instanceData instanceIds ct baseInstanceId r hnd hr
    obtain ⟨f, _, _, u, _, hstep⟩ := mem_compareCustomArrayData hr
    exact valuesShape_of_mkUnitResult hstep hnd
  · intro instanceData instanceIds ct baseInstanceId r hnd hr
    obtain ⟨u, _, hstep⟩ := mem_compareCustomObjectData hr
    exact valuesShape_of_mkUnitResult hstep hnd

/-- C2 counterexample: with a payload in which one instance's real value at a
unit is itself the string `"MISSING"`, the emitted result's
`affectedInstances` is not the list of instance ids whose `values` entry
differs from the `MISSING` sentinel (the claim as stated fails for such
payloads). -/
theorem c2_counterexample :
    ∃ r ∈ compareGenericData
        [("a", .obj [("x", .str ("MISSING"))]), ("b", .obj [("x", .num 1)])]
        ["a", "b"] none,
      r.affectedInstances ≠
        (["a", "b"] : List String).filter
          (fun id => jsGet r.values id != JValue.str ("MISSING")) := by decide

/-- Witness for C2 (amended) at a concrete generic run. -/
theorem c2_witness :
    (["a", "b"] : List String).Nodup ∧
    ValuesShape
      { path := "x", type := DiffType.edited,
        values := [("a", JValue.num 1), ("b", JValue.num 2)],
        affectedInstances := ["a", "b"],
        description := "Setting at \"x\" has inconsistent values across instances" }
      ["a", "b"] :=
  ⟨by decide,
    c2_values_completeness.2.1 [("a", .obj [("x", .num 1)]), ("b", .obj [("x", .num 2)])]
      ["a", "b"] none
      { path := "x", type := DiffType.edited,
        values := [("a", JValue.num 1), ("b", JValue.num 2)],
        affectedInstances := ["a", "b"],
        description := "Setting at \"x\" has inconsistent values across instances" }
      (by decide) (by decide)⟩

/-- C3 (amended): in base-relative mode — a truthy base instance id that
occurs in the instance list and has a present value for the unit — if that
present base value is not itself the literal string `"MISSING"` and some
other instance's value is absent, a result is always emitted for the unit and
its type is `deleted`. -/
theorem c3_missing_implies_deleted (instanceData : List (String × JValue))
    (instanceIds : List String) (b path : String)
    (hb : b ≠ "") (hbm : b ∈ instanceIds)
    (hbv : genericResolve instanceData path b ≠ JValue.undef)
    (hbs : genericResolve instanceData path b ≠ JValue.str ("MISSING"))
    (c : String) (hc : c ∈ instanceIds)
    (hcv : genericResolve instanceData path c = JValue.undef)
    (hpath : path ∈ collectPaths (instanceData.map Prod.snd)) :
    ∃ r ∈ compareGenericData instanceData instanceIds (some b),
      r.path = path ∧ r.type = DiffType.deleted := by
  have hcb : c ≠ b := fun he => hbv (he ▸ hcv)
  have hgc : jsGet (unitValues (genericResolve instanceData path) instanceIds) c
      = JValue.str ("MISSING") := by
    rw [jsGet_unitValues, if_pos hc]
    simp [unitEntry, hcv]
  have hgb : jsGet (unitValues (genericResolve instanceData path) instanceIds) b
      = genericResolve instanceData path b := by
    rw [jsGet_unitValues, if_pos hbm]
    simp [unitEntry, bne_iff_ne.mpr hbv]
  have hdiff := unitHasDifference_base_of_missing serDiffers serDistinctCount
    (genericResolve instanceData path) instanceIds b hb hbm hbv c hc hcb hgc
  obtain ⟨r, hstep, hrpath⟩ := @mkUnitResult_emit serDiffers serDistinctCount false
    (genericResolve instanceData path) instanceIds (some b) path
    (genericTemplates path) hdiff
  refine ⟨r, List.mem_filterMap.2 ⟨path, hpath, hstep⟩, hrpath, ?_⟩
  rw [(mkUnitResult_eq_some hstep).2.1]
  have hmc : c ∈ instanceIds.filter (fun id =>
      jsGet (unitValues (genericResolve instanceData path) instanceIds) id
        == JValue.str ("MISSING")) :=
    List.mem_filter.2 ⟨hc, by rw [hgc]; exact beq_self_eq_true _⟩
  have hpb : b ∈ instanceIds.filter (fun id =>
      jsGet (unitValues (genericResolve instanceData path) instanceIds) id
        != JValue.str ("MISSING")) :=
    List.mem_filter.2 ⟨hbm, by rw [hgb]; exact bne_iff_ne.mpr hbs⟩
  simp only [classifyType]
  rw [if_pos ⟨List.length_pos_of_mem hmc, List.length_pos_of_mem hpb⟩]
  simp only [bne_iff_ne, ne_eq, hb, not_false_eq_true, if_true, hgb,
    beq_eq_false_iff_ne.mpr hbs]
  rw [if_neg (by simp [hbs])]

/-- C3 counterexample: when the base's present value for the unit is itself
the literal string `"MISSING"` and the other instance lacks the unit, a
result is emitted but its type is `edited`, not `deleted`, so the claim as
stated fails. -/
theorem c3_counterexample :
    (genericResolve [("b", .obj [("x", .str ("MISSING"))]), ("c", .obj [])] ("x") ("b")
        ≠ JValue.undef) ∧
    (genericResolve [("b", .obj [("x", .str ("MISSING"))]), ("c", .obj [])] ("x") ("c")
        = JValue.undef) ∧
    (∃ r ∈ compareGenericData [("b", .obj [("x", .str ("MISSING"))]), ("c", .obj [])]
        ["b", "c"] (some ("b")),
      r.path = "x" ∧ r.type = DiffType.edited) ∧
    (∀ r ∈ compareGenericData [("b", .obj [("x", .str ("MISSING"))]), ("c", .obj [])]
        ["b", "c"] (some ("b")), r.type ≠ DiffType.deleted) := by decide

/-- Witness for C3 (amended) at a concrete base-relative run with one absent
instance. -/
theorem c3_witness :
    ∃ r ∈ compareGenericData [("b", .obj [("x", .num 1)]), ("c", .obj [])]
        ["b", "c"] (some ("b")),
      r.path = "x" ∧ r.type = DiffType.deleted :=
  c3_missing_implies_deleted [("b", .obj [("x", .num 1)]), ("c", .obj [])]
    ["b", "c"] ("b") ("x") (by decide) (by decide) (by decide) (by decide)
    ("c") (by decide) (by decide) (by decide)

/-- C4 (amended): in no-base mode, for every comparison unit for which every
instance has a present value and all these values serialize identically under
the engine's insertion-order-preserving `JSON.stringify`, no result is
produced for that unit — for every instance-id list, hence regardless of
instance order. -/
theorem c4_symmetric_no_diff (instanceData : List (String × JValue))
    (instanceIds : List String) (path s : String)
    (hall : ∀ id ∈ instanceIds, genericResolve instanceData path id ≠ JValue.undef ∧
      jsonStringify (genericResolve instanceData path id) = s) :
    ∀ r ∈ compareGenericData instanceData instanceIds none, r.path ≠ path := by
  intro r hr
  obtain ⟨u, hu, hstep⟩ := mem_compareGenericData hr
  rw [(mkUnitResult_eq_some hstep).1]
  intro hup
  subst hup
  have hle : serDistinctCount
      ((unitValues (genericResolve instanceData u) instanceIds).map Prod.snd) ≤ 1 := by
    unfold serDistinctCount
    apply @dedup_length_le_one_of_all_eq String _ _ s
    intro a ha
    obtain ⟨v, hv, hva⟩ := List.mem_map.1 ha
    obtain ⟨p, hp, hpv⟩ := List.mem_map.1 hv
    obtain ⟨id, hid, hpe⟩ := mem_unitValues _ _ _ hp
    rw [← hva, ← hpv, hpe]
    show jsonStringify (unitEntry (genericResolve instanceData u) id) = s
    unfold unitEntry
    rw [if_pos (bne_iff_ne.mpr (hall id hid).1)]
    exact (hall id hid).2
  have hfalse : unitHasDifference serDiffers serDistinctCount
      (genericResolve instanceData u) instanceIds none
      (unitValues (genericResolve instanceData u) instanceIds) = false := by
    rw [unitHasDifference_symm_eq serDiffers serDistinctCount
      (genericResolve instanceData u) instanceIds none _ rfl]
    simp
    omega
  rw [mkUnitResult_none hfalse] at hstep
  cases hstep

/-- C4 counterexample: two instances whose present values for unit `p` are
equal up to object key order — their canonical (sorted-key) serializations
are byte-equal — nevertheless produce a `DifferenceResult` for `p`, because
the engine serializes with insertion-order-preserving `JSON.stringify`; the
claim as stated (no result when all present values canonically serialize
identically) fails. -/
theorem c4_counterexample :
    ((["a", "b"] : List String).length = 2) ∧
    (∀ id ∈ (["a", "b"] : List String),
      genericResolve
        [("a", .obj [("p", .obj [("u", .num 1), ("v", .num 2)])]),
          ("b", .obj [("p", .obj [("v", .num 2), ("u", .num 1)])])] ("p") id
        ≠ JValue.undef) ∧
    (∀ id ∈ (["a", "b"] : List String), ∀ jd ∈ (["a", "b"] : List String),
      canonicalStringify (genericResolve
        [("a", .obj [("p", .obj [("u", .num 1), ("v", .num 2)])]),
          ("b", .obj [("p", .obj [("v", .num 2), ("u", .num 1)])])] ("p") id) =
      canonicalStringify (genericResolve
        [("a", .obj [("p", .obj [("u", .num 1), ("v", .num 2)])]),
          ("b", .obj [("p", .obj [("v", .num 2), ("u", .num 1)])])] ("p") jd)) ∧
    (∃ r ∈ compareGenericData
        [("a", .obj [("p", .obj [("u", .num 1), ("v", .num 2)])]),
          ("b", .obj [("p", .obj [("v", .num 2), ("u", .num 1)])])]
        ["a", "b"] none, r.path = "p") := by decide

/-- Witness for C4 (amended): with both instances holding byte-identically
serializing values at `x`, no result is emitted for `x`. -/
theorem c4_witness :
    (∀ id ∈ (["a", "b"] : List String),
      genericResolve [("a", .obj [("x", .num 1), ("y", .num 2)]),
          ("b", .obj [("x", .num 1), ("y", .num 3)])] ("x") id ≠ JValue.undef ∧
      jsonStringify (genericResolve [("a", .obj [("x", .num 1), ("y", .num 2)]),
          ("b", .obj [("x", .num 1), ("y", .num 3)])] ("x") id) = "1") ∧
    ∀ r ∈ compareGenericData [("a", .obj [("x", .num 1), ("y", .num 2)]),
        ("b", .obj [("x", .num 1), ("y", .num 3)])] ["a", "b"] none,
      r.path ≠ "x" :=
  ⟨by decide,
    c4_symmetric_no_diff
      [("a", .obj [("x", .num 1), ("y", .num 2)]), ("b", .obj [("x", .num 1), ("y", .num 3)])]
      ["a", "b"] ("x") ("1") (by decide)⟩

/-- C7 (amended): the classifier's equality test for two present values is
byte-equality of their `JSON.stringify` serializations, which preserve object
key insertion order: for two instances with present values `v` and `w` at a
collected unit, a result is emitted for the unit exactly when the two
serializations differ.  In particular objects equal up to key order but
serialized with different key orders do produce a `DifferenceResult`. -/
theorem c7_equality_is_stringify (instanceData : List (String × JValue))
    (i j path : String) (v w : JValue) (hij : i ≠ j)
    (hvi : genericResolve instanceData path i = v) (hvne : v ≠ JValue.undef)
    (hwj : genericResolve instanceData path j = w) (hwne : w ≠ JValue.undef)
    (hpath : path ∈ collectPaths (instanceData.map Prod.snd)) :
    (∃ r ∈ compareGenericData instanceData [i, j] none, r.path = path) ↔
      jsonStringify v ≠ jsonStringify w := by
  have hnd : ([i, j] : List String).Nodup := by simp [hij]
  have hei : unitEntry (genericResolve instanceData path) i = v := by
    unfold unitEntry; rw [hvi, if_pos (bne_iff_ne.mpr hvne)]
  have hej : unitEntry (genericResolve instanceData path) j = w := by
    unfold unitEntry; rw [hwj, if_pos (bne_iff_ne.mpr hwne)]
  have hvals : unitValues (genericResolve instanceData path) [i, j] = [(i, v), (j, w)] := by
    rw [unitValues_eq_map _ _ hnd]
    simp [hei, hej]
  have hcount : serDistinctCount ([(i, v), (j, w)].map Prod.snd) =
      if jsonStringify v = jsonStringify w then 1 else 2 := by
    by_cases hs : jsonStringify v = jsonStringify w
    · simp [serDistinctCount, hs, List.dedup_cons_of_mem]
    · simp [serDistinctCount, List.dedup_cons_of_not_mem, hs]
  have hdiff : unitHasDifference serDiffers serDistinctCount
      (genericResolve instanceData path) [i, j] none
      (unitValues (genericResolve instanceData path) [i, j]) =
      decide (1 < serDistinctCount
        ((unitValues (genericResolve instanceData path) [i, j]).map Prod.snd)) :=
    unitHasDifference_symm_eq _ _ _ _ _ _ rfl
  constructor
  · rintro ⟨r, hr, hrp⟩
    obtain ⟨u, hu, hstep⟩ := mem_compareGenericData hr
    have hup : u = path := ((mkUnitResult_eq_some hstep).1).symm.trans hrp
    subst hup
    intro hs
    have hfalse : unitHasDifference serDiffers serDistinctCount
        (genericResolve instanceData u) [i, j] none
        (unitValues (genericResolve instanceData u) [i, j]) = false := by
      rw [hdiff, hvals, hcount, if_pos hs]
      simp
    rw [mkUnitResult_none hfalse] at hstep
    cases hstep
  · intro hs
    have htrue : unitHasDifference serDiffers serDistinctCount
        (genericResolve instanceData path) [i, j] none
        (unitValues (genericResolve instanceData path) [i, j]) = true := by
      rw [hdiff, hvals, hcount, if_neg hs]
      simp
    obtain ⟨r, hstep, hrpath⟩ := @mkUnitResult_emit serDiffers serDistinctCount false
      (genericResolve instanceData path) [i, j] none path (genericTemplates path) htrue
    exact ⟨r, List.mem_filterMap.2 ⟨path, hpath, hstep⟩, hrpath⟩

/-- C7 counterexample: two instances whose values at unit `q` are the same
object up to key order (their canonical sorted-key serializations are
byte-equal) do produce a `DifferenceResult` for `q`, contradicting the claim
that such values always compare equal. -/
theorem c7_counterexample :
    (canonicalStringify (JValue.obj [("m", .num 3), ("n", .num 4)]) =
      canonicalStringify (JValue.obj [("n", .num 4), ("m", .num 3)])) ∧
    (∃ r ∈ compareGenericData
        [("a", .obj [("q", .obj [("m", .num 3), ("n", .num 4)])]),
          ("b", .obj [("q", .obj [("n", .num 4), ("m", .num 3)])])]
        ["a", "b"] none, r.path = "q") := by decide

/-- Witness for C7 (amended) at two concrete present values. -/
theorem c7_witness :
    (("a" : String) ≠ "b") ∧
    ((∃ r ∈ compareGenericData [("a", .obj [("x", .num 1)]), ("b", .obj [("x", .num 2)])]
        ["a", "b"] none, r.path = "x") ↔
      jsonStringify (JValue.num 1) ≠ jsonStringify (JValue.num 2)) :=
  ⟨by decide,
    c7_equality_is_stringify [("a", .obj [("x", .num 1)]), ("b", .obj [("x", .num 2)])]
      ("a") ("b") ("x") (JValue.num 1) (JValue.num 2) (by decide) (by decide) (by decide)
      (by decide) (by decide) (by decide)⟩

/-! ### Identifier-union and item-map lemmas -/

theorem mem_insertUnique (l : List String) (t s : String) (h : s ∈ insertUnique l t) :
    s ∈ l ∨ s = t := by
  unfold insertUnique at h
  split at h
  · exact Or.inl h
  · rcases List.mem_append.1 h with h | h
    · exact Or.inl h
    · exact Or.inr (by simpa using h)

theorem self_mem_insertUnique (l : List String) (t : String) : t ∈ insertUnique l t := by
  unfold insertUnique
  split
  · assumption
  · exact List.mem_append_right _ (List.mem_singleton_self t)

theorem mem_insertUnique_of_mem (l : List String) (t s : String) (h : s ∈ l) :
    s ∈ insertUnique l t := by
  unfold insertUnique
  split
  · exact h
  · exact List.mem_append_left _ h

theorem mem_itemIds_foldl (identifierField : String) (items : List JValue)
    (acc : List String) (s : String)
    (h : s ∈ items.foldl (fun acc item =>
      let identifier := jsToString (jsIndex item identifierField)
      if identifier != "" then insertUnique acc identifier else acc) acc) :
    s ∈ acc ∨ ∃ item ∈ items, jsToString (jsIndex item identifierField) = s ∧ s ≠ "" := by
  induction items generalizing acc with
  | nil => exact Or.inl h
  | cons item rest ih =>
      rw [List.foldl_cons] at h
      rcases ih _ h with h' | ⟨it, hit, hs⟩
      · by_cases hid : (jsToString (jsIndex item identifierField) != "") = true
        · rw [if_pos hid] at h'
          rcases mem_insertUnique _ _ _ h' with h'' | h''
          · exact Or.inl h''
          · exact Or.inr ⟨item, List.mem_cons_self _ _, h''.symm,
              h'' ▸ bne_iff_ne.1 hid⟩
        · rw [if_neg hid] at h'
          exact Or.inl h'
      · exact Or.inr ⟨it, List.mem_cons_of_mem _ hit, hs⟩

theorem mem_itemIds_foldl_of_mem_acc (identifierField : String) (items : List JValue)
    (acc : List String) (s : String) (h : s ∈ acc) :
    s ∈ items.foldl (fun acc item =>
      let identifier := jsToString (jsIndex item identifierField)
      if identifier != "" then insertUnique acc identifier else acc) acc := by
  induction items generalizing acc with
  | nil => exact h
  | cons item rest ih =>
      rw [List.foldl_cons]
      apply ih
      by_cases hid : (jsToString (jsIndex item identifierField) != "") = true
      · rw [if_pos hid]; exact mem_insertUnique_of_mem _ _ _ h
      · rw [if_neg hid]; exact h

theorem mem_itemIds_foldl_of_mem_items (identifierField : String) (items : List JValue)
    (acc : List String) (item : JValue) (hit : item ∈ items)
    (hne : jsToString (jsIndex item identifierField) ≠ "") :
    jsToString (jsIndex item identifierField) ∈ items.foldl (fun acc item =>
      let identifier := jsToString (jsIndex item identifierField)
      if identifier != "" then insertUnique acc identifier else acc) acc := by
  induction items generalizing acc with
  | nil => cases hit
  | cons hd rest ih =>
      rw [List.foldl_cons]
      rcases List.mem_cons.1 hit with rfl | hit'
      · apply mem_itemIds_foldl_of_mem_acc
        rw [if_pos (bne_iff_ne.mpr hne)]
        exact self_mem_insertUnique _ _
      · exact ih _ hit'

theorem mem_customAllItemIds_aux (instanceData : List (String × List JValue))
    (identifierField : String) (instanceIds : List String) (acc : List String)
    (s : String)
    (h : s ∈ instanceIds.foldl (fun acc instanceId =>
      ((instanceData.lookup instanceId).getD []).foldl (fun acc item =>
        let identifier := jsToString (jsIndex item identifierField)
        if identifier != "" then insertUnique acc identifier else acc) acc) acc) :
    s ∈ acc ∨ ∃ id ∈ instanceIds, ∃ item ∈ (instanceData.lookup id).getD [],
      jsToString (jsIndex item identifierField) = s ∧ s ≠ "" := by
  induction instanceIds generalizing acc with
  | nil => exact Or.inl h
  | cons x rest ih =>
      rw [List.foldl_cons] at h
      rcases ih _ h with h' | ⟨id, hid, hs⟩
      · rcases mem_itemIds_foldl identifierField _ _ _ h' with h'' | ⟨item, hit, hkey, hne⟩
        · exact Or.inl h''
        · exact Or.inr ⟨x, List.mem_cons_self _ _, item, hit, hkey, hne⟩
      · exact Or.inr ⟨id, List.mem_cons_of_mem _ hid, hs⟩

theorem mem_customAllItemIds {instanceData : List (String × List JValue)}
    {instanceIds : List String} {identifierField : String} {s : String}
    (h : s ∈ customAllItemIds instanceData instanceIds identifierField) :
    ∃ id ∈ instanceIds, ∃ item ∈ (instanceData.lookup id).getD [],
      jsToString (jsIndex item identifierField) = s ∧ s ≠ "" := by
  rcases mem_customAllItemIds_aux instanceData identifierField instanceIds [] s h with
    h' | h'
  · cases h'
  · exact h'

theorem mem_union_foldl_of_mem_acc (instanceData : List (String × List JValue))
    (identifierField : String) (instanceIds : List String) (acc : List String)
    (s : String) (h : s ∈ acc) :
    s ∈ instanceIds.foldl (fun acc instanceId =>
      ((instanceData.lookup instanceId).getD []).foldl (fun acc item =>
        let identifier := jsToString (jsIndex item identifierField)
        if identifier != "" then insertUnique acc identifier else acc) acc) acc := by
  induction instanceIds generalizing acc with
  | nil => exact h
  | cons x rest ih =>
      rw [List.foldl_cons]
      exact ih _ (mem_itemIds_foldl_of_mem_acc _ _ _ _ h)

theorem customAllItemIds_of_mem_item {instanceData : List (String × List JValue)}
    {instanceIds : List String} {identifierField : String} {id : String}
    (hid : id ∈ instanceIds) {item : JValue}
    (hit : item ∈ (instanceData.lookup id).getD [])
    (hne : jsToString (jsIndex item identifierField) ≠ "") :
    jsToString (jsIndex item identifierField) ∈
      customAllItemIds instanceData instanceIds identifierField := by
  unfold customAllItemIds
  have haux : ∀ (ids : List String) (acc : List String), id ∈ ids →
      jsToString (jsIndex item identifierField) ∈ ids.foldl (fun acc instanceId =>
        ((instanceData.lookup instanceId).getD []).foldl (fun acc item =>
          let identifier := jsToString (jsIndex item identifierField)
          if identifier != "" then insertUnique acc identifier else acc) acc) acc := by
    intro ids
    induction ids with
    | nil => intro acc h; cases h
    | cons x rest ih =>
        intro acc h
        rw [List.foldl_cons]
        rcases List.mem_cons.1 h with rfl | h'
        · exact mem_union_foldl_of_mem_acc _ _ _ _ _
            (mem_itemIds_foldl_of_mem_items _ _ _ _ hit hne)
        · exact ih _ h'
  exact haux instanceIds [] hid

theorem instItemMap_lookup_empty (items : List JValue) (identifierField : String) :
    (instItemMap items identifierField).lookup ("") = none := by
  unfold instItemMap
  have haux : ∀ (l : List JValue) (acc : List (String × JValue)),
      acc.lookup ("") = none →
      (l.foldl (fun itemMap item =>
        let identifier := jsToString (jsIndex item identifierField)
        if identifier != "" then mapSet itemMap identifier item else itemMap)
        acc).lookup ("") = none := by
    intro l
    induction l with
    | nil => exact fun acc h => h
    | cons item rest ih =>
        intro acc h
        rw [List.foldl_cons]
        apply ih
        by_cases hid : (jsToString (jsIndex item identifierField) != "") = true
        · rw [if_pos hid, lookup_mapSet,
            if_neg (fun he => (bne_iff_ne.1 hid) he.symm)]
          exact h
        · rw [if_neg hid]; exact h
  exact haux items [] rfl

theorem instItemMap_lookup_of_mem (items : List JValue) (identifierField : String)
    (item : JValue) (hit : item ∈ items)
    (hne : jsToString (jsIndex item identifierField) ≠ "") :
    ∃ it, (instItemMap items identifierField).lookup
      (jsToString (jsIndex item identifierField)) = some it := by
  unfold instItemMap
  have hpres : ∀ (l : List JValue) (acc : List (String × JValue)) (s : String),
      (∃ it, acc.lookup s = some it) →
      ∃ it, (l.foldl (fun itemMap item =>
        let identifier := jsToString (jsIndex item identifierField)
        if identifier != "" then mapSet itemMap identifier item else itemMap)
        acc).lookup s = some it := by
    intro l
    induction l with
    | nil => exact fun acc s h => h
    | cons hd rest ih =>
        intro acc s h
        rw [List.foldl_cons]
        apply ih
        by_cases hid : (jsToString (jsIndex hd identifierField) != "") = true
        · rw [if_pos hid, lookup_mapSet]
          by_cases hs : s = jsToString (jsIndex hd identifierField)
          · exact ⟨hd, by rw [if_pos hs]⟩
          · rw [if_neg hs]; exact h
        · rw [if_neg hid]; exact h
  have haux : ∀ (l : List JValue) (acc : List (String × JValue)), item ∈ l →
      ∃ it, (l.foldl (fun itemMap item =>
        let identifier := jsToString (jsIndex item identifierField)
        if identifier != "" then mapSet itemMap identifier item else itemMap)
        acc).lookup (jsToString (jsIndex item identifierField)) = some it := by
    intro l
    induction l with
    | nil => intro acc h; cases h
    | cons hd rest ih =>
        intro acc h
        rw [List.foldl_cons]
        rcases List.mem_cons.1 h with rfl | h'
        · apply hpres
          rw [if_pos (bne_iff_ne.mpr hne), lookup_mapSet, if_pos rfl]
          exact ⟨item, rfl⟩
        · exact ih _ h'
  exact haux items [] hit

/-- C8 (amended): in array-by-identifier mode a record is skipped exactly
when its identifier value stringifies to the empty string — the only falsy
result of `String(...)`: the empty identifier never enters the identifier
union or an instance's identity map.  Conversely every record whose
identifier stringifies to a non-empty string — including `0` (`"0"`),
`false` (`"false"`) and an absent identifier field (`"undefined"`) — does
enter the union and therefore produces a comparison unit. -/
theorem c8_identifier_skip (instanceData : List (String × List JValue))
    (instanceIds : List String) (identifierField : String) :
    ("" ∉ customAllItemIds instanceData instanceIds identifierField) ∧
    (∀ items : List JValue, (instItemMap items identifierField).lookup ("") = none) ∧
    (∀ id ∈ instanceIds, ∀ item ∈ (instanceData.lookup id).getD [],
      jsToString (jsIndex item identifierField) ≠ "" →
      jsToString (jsIndex item identifierField) ∈
        customAllItemIds instanceData instanceIds identifierField) := by
  refine ⟨?_, ?_, ?_⟩
  · intro h
    obtain ⟨id, _, item, _, _, hne⟩ := mem_customAllItemIds h
    exact hne rfl
  · exact fun items => instItemMap_lookup_empty items identifierField
  · intro id hid item hit hne
    exact customAllItemIds_of_mem_item hid hit hne

/-- C8 counterexample: a record with identifier `0` stringifies to the truthy
string `"0"`, enters the identifier union, and produces a comparison unit
with an emitted result — the claim that such records are skipped entirely
fails. -/
theorem c8_counterexample :
    (jsToString (jsIndex (JValue.obj [("id", .num 0), ("v", .num 1)]) ("id")) = "0") ∧
    ("0" ∈ customAllItemIds [("a", [JValue.obj [("id", .num 0), ("v", .num 1)]]), ("b", [])]
      ["a", "b"] ("id")) ∧
    (∃ r ∈ compareCustomArrayData
        [("a", [JValue.obj [("id", .num 0), ("v", .num 1)]]), ("b", [])] ["a", "b"]
        { id := "c", name := "c", label := "C", comparisonFields := ["v"],
          identifierField := some ("id") } none,
      r.path = "0") := by decide

/-- Witness for C8 (amended) at a concrete record with identifier `0`. -/
theorem c8_witness :
    (jsToString (jsIndex (JValue.obj [("id", .num 0), ("v", .num 1)]) ("id")) ≠ "") ∧
    jsToString (jsIndex (JValue.obj [("id", .num 0), ("v", .num 1)]) ("id")) ∈
      customAllItemIds [("a", [JValue.obj [("id", .num 0), ("v", .num 1)]]), ("b", [])]
        ["a", "b"] ("id") :=
  ⟨by decide,
    (c8_identifier_skip [("a", [JValue.obj [("id", .num 0), ("v", .num 1)]]), ("b", [])]
        ["a", "b"] ("id")).2.2 ("a") (by decide)
      (JValue.obj [("id", .num 0), ("v", .num 1)]) (by decide) (by decide)⟩

theorem serHasDifference_of_obj_and_missing (resolve : String → JValue)
    (instanceIds : List String) (baseId : Option String)
    (p : String) (hp : p ∈ instanceIds) (fields : List (String × JValue))
    (hpv : resolve p = JValue.obj fields)
    (c : String) (hc : c ∈ instanceIds) (hcv : resolve c = JValue.undef) :
    unitHasDifference serDiffers serDistinctCount resolve instanceIds baseId
      (unitValues resolve instanceIds) = true := by
  have hgc : jsGet (unitValues resolve instanceIds) c = JValue.str ("MISSING") := by
    rw [jsGet_unitValues, if_pos hc]
    simp [unitEntry, hcv]
  by_cases hbase : (strTruthy baseId && hasBaseValue resolve instanceIds baseId) = true
  · cases baseId with
    | none => simp [strTruthy] at hbase
    | some b =>
        rw [Bool.and_eq_true] at hbase
        have hb : b ≠ "" := bne_iff_ne.1 (by simpa [strTruthy] using hbase.1)
        have h2 : (b != "" && instanceIds.contains b && (resolve b != JValue.undef)) = true :=
          hbase.2
        rw [Bool.and_eq_true, Bool.and_eq_true] at h2
        have hbm : b ∈ instanceIds := by simpa using h2.1.2
        have hbv : resolve b ≠ JValue.undef := bne_iff_ne.1 h2.2
        have hcb : c ≠ b := fun he => hbv (he ▸ hcv)
        exact unitHasDifference_base_of_missing _ _ _ _ b hb hbm hbv c hc hcb hgc
  · have hbf : (strTruthy baseId && hasBaseValue resolve instanceIds baseId) = false := by
      cases hx : (strTruthy baseId && hasBaseValue resolve instanceIds baseId)
      · rfl
      · exact absurd hx hbase
    rw [unitHasDifference_symm_eq _ _ _ _ _ _ hbf]
    have hobj : JValue.obj fields ∈ (unitValues resolve instanceIds).map Prod.snd := by
      have h := entry_mem_unitValues_snd resolve instanceIds p hp
      rwa [show unitEntry resolve p = JValue.obj fields from by
        simp [unitEntry, hpv]] at h
    have hsent : JValue.str ("MISSING") ∈ (unitValues resolve instanceIds).map Prod.snd := by
      have h := entry_mem_unitValues_snd resolve instanceIds c hc
      rwa [show unitEntry resolve c = JValue.str ("MISSING") from by
        simp [unitEntry, hcv]] at h
    have h1 := List.mem_map_of_mem jsonStringify hobj
    have h2 := List.mem_map_of_mem jsonStringify hsent
    exact decide_eq_true
      (one_lt_dedup_length h1 h2 (jsonStringify_obj_ne_str fields ("MISSING")))

theorem customArrayResolve_obj_of_ne_undef {instanceData : List (String × List JValue)}
    {ct : CustomComparisonType} {identifierField itemId instanceId : String}
    (h : customArrayResolve instanceData ct identifierField itemId instanceId
      ≠ JValue.undef) :
    ∃ item, customArrayResolve instanceData ct identifierField itemId instanceId =
      JValue.obj (ct.comparisonFields.map (fun field => (field, getValueAtPath item field))) := by
  simp only [customArrayResolve] at h ⊢
  rcases hlk : (instItemMap ((instanceData.lookup instanceId).getD [])
      identifierField).lookup itemId with _ | item
  · simp [hlk] at h
  · simp only [hlk] at h ⊢
    by_cases ht : jsTruthy item = true
    · rw [if_pos ht]
      exact ⟨item, rfl⟩
    · rw [if_neg ht] at h
      exact absurd rfl h

/-- C9 (amended): in the feature-toggle comparison, every unit of the name
union for which some instance lacks the feature (so
`affectedInstances.length` differs from `instanceIds.length`) produces a
`DifferenceResult` — the explicit partial-presence disjunct.  In the custom
array-by-identifier comparison, which lacks that disjunct, the same holds
for every unit of the identifier union provided additionally at least one
instance resolves to a present (truthy) item: a present comparison-field
sub-object and the `MISSING` sentinel never serialize alike, so
`hasDifference` is set.  A unit all of whose stored items are falsy (only
possible for non-record array elements such as `0`) is treated as `MISSING`
in every instance and is silently dropped despite its partial presence. -/
theorem c9_partial_presence_reported :
    (∀ (instanceData : List (String × List FeatureToggle)) (instanceIds : List String)
        (baseInstanceId : Option String) (featureName : String),
        featureName ∈ allFeatureNames instanceData instanceIds →
        (∃ c ∈ instanceIds, toggleResolve instanceData featureName c = JValue.undef) →
        ∃ r ∈ compareFeatureToggles instanceData instanceIds baseInstanceId,
          r.path = featureName) ∧
    (∀ (instanceData : List (String × List JValue)) (instanceIds : List String)
        (ct : CustomComparisonType) (baseInstanceId : Option String)
        (identifierField itemId : String),
        ct.identifierField = some identifierField → identifierField ≠ "" →
        itemId ∈ customAllItemIds instanceData instanceIds identifierField →
        (∃ p ∈ instanceIds,
          customArrayResolve instanceData ct identifierField itemId p ≠ JValue.undef) →
        (∃ c ∈ instanceIds,
          customArrayResolve instanceData ct identifierField itemId c = JValue.undef) →
        ∃ r ∈ compareCustomArrayData instanceData instanceIds ct baseInstanceId,
          r.path = itemId) := by
  constructor
  · intro instanceData instanceIds baseInstanceId featureName hmem ⟨c, hc, hcv⟩
    have haff : (unitAffected (toggleResolve instanceData featureName) instanceIds).length
        ≠ instanceIds.length := by
      apply length_filter_ne_of_mem _ _ c hc
      simp [hcv]
    obtain ⟨r, hstep, hrpath⟩ := @mkUnitResult_emitPartial rawDiffers rawDistinctCount
      (toggleResolve instanceData featureName) instanceIds baseInstanceId featureName
      (toggleTemplates featureName) haff
    exact ⟨r, List.mem_filterMap.2 ⟨featureName, hmem, hstep⟩, hrpath⟩
  · intro instanceData instanceIds ct baseInstanceId identifierField itemId hf hfne
      hmem ⟨p, hp, hpne⟩ ⟨c, hc, hcv⟩
    obtain ⟨item, hpv⟩ := customArrayResolve_obj_of_ne_undef hpne
    have hdiff := serHasDifference_of_obj_and_missing
      (customArrayResolve instanceData ct identifierField itemId) instanceIds
      baseInstanceId p hp _ hpv c hc hcv
    obtain ⟨r, hstep, hrpath⟩ := @mkUnitResult_emit serDiffers serDistinctCount false
      (customArrayResolve instanceData ct identifierField itemId) instanceIds
      baseInstanceId itemId (customArrayTemplates ct.label itemId) hdiff
    refine ⟨r, ?_, hrpath⟩
    simp only [compareCustomArrayData, hf]
    rw [if_neg hfne]
    exact List.mem_filterMap.2 ⟨itemId, hmem, hstep⟩

/-- C9 counterexample: with instance `a` holding the array `[0]` and `b`
empty, the primitive element `0` enters the identifier union under
`String(0["id"]) = "undefined"`, but the `if (item)` truthiness test then
treats the falsy item as missing in every instance: the unit's
`affectedInstances` would be empty (length 0, not 2), yet
`compareCustomArrayData` — which has no partial-presence disjunct — emits no
`DifferenceResult` at all, refuting the claim for the custom
array-by-identifier comparison. -/
theorem c9_counterexample :
    ("undefined" ∈ customAllItemIds [("a", [JValue.num 0]), ("b", [])]
      ["a", "b"] ("id")) ∧
    ((unitAffected (customArrayResolve [("a", [JValue.num 0]), ("b", [])]
        { id := "c", name := "c", label := "C", comparisonFields := ["v"],
          identifierField := some ("id") } ("id") ("undefined")) ["a", "b"]).length
      ≠ (["a", "b"] : List String).length) ∧
    (compareCustomArrayData [("a", [JValue.num 0]), ("b", [])] ["a", "b"]
      { id := "c", name := "c", label := "C", comparisonFields := ["v"],
        identifierField := some ("id") } none = []) := by decide

/-- Witness for C9 (amended) at one concrete run of each array/identity mode
with a partially present unit (the custom-array unit present and truthy in
one instance, absent in the other). -/
theorem c9_witness :
    (∃ r ∈ compareFeatureToggles
        [("a", [{ FeatureName := "f1", CurrentValue := true }]), ("b", [])]
        ["a", "b"] none, r.path = "f1") ∧
    (∃ r ∈ compareCustomArrayData
        [("a", [JValue.obj [("id", .str ("i7")), ("v", .num 1)]]), ("b", [])]
        ["a", "b"]
        { id := "c", name := "c", label := "C", comparisonFields := ["v"],
          identifierField := some ("id") } none,
      r.path = "i7") :=
  ⟨c9_partial_presence_reported.1
      [("a", [{ FeatureName := "f1", CurrentValue := true }]), ("b", [])]
      ["a", "b"] none ("f1") (by decide) ⟨"b", by decide, by decide⟩,
    c9_partial_presence_reported.2
      [("a", [JValue.obj [("id", .str ("i7")), ("v", .num 1)]]), ("b", [])]
      ["a", "b"]
      { id := "c", name := "c", label := "C", comparisonFields := ["v"],
        identifierField := some ("id") } none ("id") ("i7") (by decide) (by decide)
      (by decide) ⟨"a", by decide, by decide⟩ ⟨"b", by decide, by decide⟩⟩

